import Mathlib

/-!
Verification development for the RCS-Summary reporting repository.

The Python sources (`app.py`, `traffic.py`, `od.py`, `analysis.py`) are
shallowly embedded below.  DataFrames become lists of record structures,
period mappings become structures of `Option (List _)` fields (a `none`
field models an absent dictionary key), pandas `NaN` cells become `none`,
fallible code (KeyError / ValueError / NameError / ZeroDivisionError)
returns `Except` or `Option`, and numeric cells are modelled by `ℚ`
(counters fetched from the database are integers, modelled by `ℤ`).
-/

namespace RCS

/-! ### Generic list and string helpers (pandas primitives) -/

/-- Boolean test that the first character list is an initial segment of the
second; building block for the substring test used to model
`index.str.contains`. -/
def chPre : List Char → List Char → Bool
  | [], _ => true
  | _ :: _, [] => false
  | a :: as, b :: bs => a == b && chPre as bs

/-- Boolean test that `n` occurs as a contiguous segment of the second list. -/
def chSub (n : List Char) : List Char → Bool
  | [] => chPre n []
  | c :: cs => chPre n (c :: cs) || chSub n cs

/-- Model of pandas `hay.str.contains(needle)` for one string. -/
def strContains (hay needle : String) : Bool :=
  chSub needle.data hay.data

/-- Model of pandas `Series.unique()`: unique values in order of first
appearance. -/
def uniqFirst {α : Type} [DecidableEq α] (l : List α) : List α :=
  l.foldl (fun acc x => if x ∈ acc then acc else acc ++ [x]) []

/-- Lexicographic code-point comparison (≤) of character lists: the order
Python's `sorted` uses on strings. -/
def chLe : List Char → List Char → Bool
  | [], _ => true
  | _ :: _, [] => false
  | a :: as, b :: bs =>
    if a.toNat < b.toNat then true
    else if b.toNat < a.toNat then false
    else chLe as bs

/-- Strict lexicographic code-point comparison of character lists. -/
def chLt : List Char → List Char → Bool
  | [], [] => false
  | [], _ :: _ => true
  | _ :: _, [] => false
  | a :: as, b :: bs =>
    if a.toNat < b.toNat then true
    else if b.toNat < a.toNat then false
    else chLt as bs

/-- String comparison `a <= b` in Python's sort order. -/
def strLe (a b : String) : Bool := chLe a.data b.data

/-- String comparison `a < b` in Python's sort order. -/
def strLt (a b : String) : Bool := chLt a.data b.data

/-- Insert into a sorted list, keeping it sorted under `le`. -/
def insertLe {α : Type} (le : α → α → Bool) (x : α) : List α → List α
  | [] => [x]
  | y :: ys => if le x y then x :: y :: ys else y :: insertLe le x ys

/-- Insertion sort.  Python's `sorted` is applied to deduplicated key lists
throughout this development, where every sort with the same total order
agrees, so the choice of algorithm is immaterial. -/
def insSort {α : Type} (le : α → α → Bool) : List α → List α
  | [] => []
  | x :: xs => insertLe le x (insSort le xs)

/-- Model of `sorted(series.unique())` for strings. -/
def sortedUnique (l : List String) : List String :=
  insSort strLe (uniqFirst l)

/-- Lexicographic comparison of string pairs, the order a pandas MultiIndex
is sorted in. -/
def lexLe (a b : String × String) : Bool :=
  strLt a.1 b.1 || (a.1 == b.1 && strLe a.2 b.2)

/-- `sorted(unique)` for a two-level index. -/
def sortedUniqueP (l : List (String × String)) : List (String × String) :=
  insSort lexLe (uniqFirst l)

/-- Model of a pandas `df.loc[key] = value` row assignment on a keyed frame:
overwrite every row carrying the key if any exists, otherwise append the new
row at the end. -/
def locSet {K V : Type} [BEq K] (rows : List (K × V)) (k : K) (v : V) :
    List (K × V) :=
  if rows.any (fun p => p.1 == k) then
    rows.map (fun p => if p.1 == k then (k, v) else p)
  else
    rows ++ [(k, v)]

/-! ### Calendar model (`datetime.date` / `calendar.monthrange`) -/

/-- Gregorian leap-year test, as in Python's `calendar` module. -/
def isLeap (y : ℕ) : Bool :=
  y % 4 == 0 && (y % 100 != 0 || y % 400 == 0)

/-- `calendar.monthrange(y, m)[1]`: number of days of month `m` of year `y`. -/
def daysInMonth (y m : ℕ) : ℕ :=
  if m == 2 then (if isLeap y then 29 else 28)
  else if m == 4 || m == 6 || m == 9 || m == 11 then 30
  else 31

/-- A `datetime.date`-like value (year, month, day). -/
structure PyDate where
  y : ℕ
  m : ℕ
  d : ℕ
  deriving DecidableEq, Repr

/-- The dates Python's `datetime.date` can actually hold. -/
def PyDate.Valid (t : PyDate) : Prop :=
  1 ≤ t.y ∧ 1 ≤ t.m ∧ t.m ≤ 12 ∧ 1 ≤ t.d ∧ t.d ≤ daysInMonth t.y t.m

instance (t : PyDate) : Decidable t.Valid := by
  unfold PyDate.Valid; infer_instance

/-- `t - timedelta(days=1)` on a valid date. -/
def predDay (t : PyDate) : PyDate :=
  if 2 ≤ t.d then ⟨t.y, t.m, t.d - 1⟩
  else if 2 ≤ t.m then ⟨t.y, t.m - 1, daysInMonth t.y (t.m - 1)⟩
  else ⟨t.y - 1, 12, 31⟩

/-- `t.replace(day=d)`: raises `ValueError` (modelled by `none`) when the
requested day does not exist in `t`'s month. -/
def replaceDay (t : PyDate) (d : ℕ) : Option PyDate :=
  if 1 ≤ d ∧ d ≤ daysInMonth t.y t.m then some ⟨t.y, t.m, d⟩ else none

/-- Chronological comparison of dates, for sorted pivot indexes and
date-keyed columns. -/
def dateLe (a b : PyDate) : Bool :=
  a.y < b.y || (a.y == b.y && (a.m < b.m || (a.m == b.m && a.d ≤ b.d)))

/-- `sorted(series.unique())` for a date-valued series. -/
def sortedUniqueDates (l : List PyDate) : List PyDate :=
  insSort dateLe (uniqFirst l)

/-! ### Rounding (numpy / pandas `round`) -/

/-- Round a rational to the nearest integer, ties to even — the behaviour of
`numpy.round` / `DataFrame.round(0)` followed by `astype(int)`. -/
def rhe (q : ℚ) : ℤ :=
  let f : ℤ := ⌊q⌋
  let r : ℚ := q - (f : ℚ)
  if r < 1/2 then f
  else if 1/2 < r then f + 1
  else if f % 2 = 0 then f else f + 1

/-- `DataFrame.round(p)`: round to `p` decimal places, ties to even. -/
def roundTo (p : ℕ) (q : ℚ) : ℚ :=
  (rhe (q * (10 : ℚ) ^ p) : ℚ) / (10 : ℚ) ^ p

/-- Decidable equality of `Except` results, for evaluating the pipelines on
concrete inputs. -/
instance {ε α : Type} [DecidableEq ε] [DecidableEq α] :
    DecidableEq (Except ε α) := fun a b =>
  match a, b with
  | .error e, .error f =>
    if h : e = f then .isTrue (congrArg Except.error h)
    else .isFalse (fun hh => h (Except.error.inj hh))
  | .ok x, .ok y =>
    if h : x = y then .isTrue (congrArg Except.ok h)
    else .isFalse (fun hh => h (Except.ok.inj hh))
  | .error _, .ok _ => .isFalse (fun hh => Except.noConfusion hh)
  | .ok _, .error _ => .isFalse (fun hh => Except.noConfusion hh)

/-- Exceptions the pivot pipelines can raise. -/
inductive PivErr
  | keyError (k : String)
  | valueError
  | zeroDivision
  | nameError (n : String)
  deriving DecidableEq, Repr

/-- `days_in_month / days_completed`: a Python division that raises
`ZeroDivisionError` (modelled as `none`) on a zero divisor.  There is no
guard in the source. -/
def projRatio (dim de : ℕ) : Option ℚ :=
  if de = 0 then none else some ((dim : ℚ) / (de : ℚ))

/-- The projection value for one MTD cell: `MTD * (days_in_month /
days_completed)`. -/
def projectionCell (mtdVal : ℚ) (dim de : ℕ) : Option ℚ :=
  (projRatio dim de).map (fun r => mtdVal * r)

end RCS

namespace App

open RCS

/-! ### `app.get_date_ranges` -/

/-- The three ranges computed by `app.get_date_ranges`.  The source formats
each endpoint with `strftime('%Y-%m-%d')`; an injective formatting step, so
the ranges are modelled directly as date pairs. -/
structure DateRanges where
  ftd : PyDate × PyDate
  mtd : PyDate × PyDate
  lmtd : PyDate × PyDate
  deriving DecidableEq, Repr

/-- `app.get_date_ranges`, with `today` standing for `datetime.now()`.
`last_month.replace(day=yesterday.day)` raises `ValueError` (here `none`)
when `yesterday.day` exceeds the length of the previous month: the source
performs no clamping. -/
def get_date_ranges (today : PyDate) : Option DateRanges :=
  let yesterday := predDay today
  let firstOfMonth : PyDate := ⟨today.y, today.m, 1⟩
  let ftdRange := (yesterday, yesterday)
  let mtdRange := (firstOfMonth, yesterday)
  let lastMonth := predDay firstOfMonth
  let lmtdStart : PyDate := ⟨lastMonth.y, lastMonth.m, 1⟩
  match replaceDay lastMonth yesterday.d with
  | none => none
  | some lmtdEnd => some ⟨ftdRange, mtdRange, (lmtdStart, lmtdEnd)⟩

/-! ### Category resolution (`app.apply_type_mapping`, `traffic.fetch_traffic_data`) -/

/-- A row of the raw traffic query result, restricted to the columns that
category resolution touches.  `vcType = none` models a SQL NULL / NaN. -/
structure RawRec where
  agentID : String
  vcType : Option String
  deriving DecidableEq, Repr

/-- The `mapping.csv` id→category table.  An empty CSV cell loads as NaN,
modelled by a `none` value. -/
abbrev TypeMapping := List (String × Option String)

/-- Category produced by `app.apply_type_mapping` for one row:
`df['vcType'] = df['vcAgentID'].map(mapping)` then `fillna('Enterprise')`.
The row's previous category is discarded unconditionally. -/
def resolveApply (aid : String) (m : TypeMapping) : String :=
  ((m.lookup aid).join).getD "Enterprise"

/-- `app.apply_type_mapping` on a whole frame. -/
def apply_type_mapping (df : List RawRec) (m : TypeMapping) : List RawRec :=
  df.map (fun r => { r with vcType := some (resolveApply r.agentID m) })

end App

namespace Traffic

open RCS

/-- Category produced by the update step of `traffic.fetch_traffic_data`
(lines 45–49): only rows whose own `vcType` is NaN or the empty string are
re-mapped (`mask = df['vcType'].isna() | (df['vcType'] == '')`), then
`fillna('Enterprise')` fills what is still missing.  A row with a non-empty
existing category keeps it, regardless of the mapping. -/
def resolveFetch (v0 : Option String) (aid : String) (m : App.TypeMapping) :
    String :=
  if v0 = none ∨ v0 = some "" then App.resolveApply aid m
  else v0.getD "Enterprise"

/-- The mapping-update step of `traffic.fetch_traffic_data` on a frame. -/
def updateTypes (df : List App.RawRec) (m : App.TypeMapping) :
    List App.RawRec :=
  df.map (fun r => { r with vcType := some (resolveFetch r.vcType r.agentID m) })

/-! ### `traffic.create_traffic_pivot`

The input is the `dfs` dictionary (possible keys `'FTD'`, `'MTD'`, `'LMTD'`,
`'last_month'`, `'last_last_month'`); a `none` field models an absent key.
Each frame row is reduced to the columns the pivot reads. -/

/-- A traffic row as consumed by `traffic.create_traffic_pivot` (the category
has already been resolved upstream; `iTotalSentSuccess` is an integer counter
in the database schema). -/
structure TRec where
  vcORGName : String
  vcType : String
  iTotalSentSuccess : ℤ
  deriving DecidableEq, Repr

/-- The `dfs` period dictionary. -/
structure DFS where
  ftd : Option (List TRec)
  mtd : Option (List TRec)
  lmtd : Option (List TRec)
  lastMonth : Option (List TRec)
  lastLastMonth : Option (List TRec)
  deriving DecidableEq, Repr

/-- Python's `not dfs`: the dictionary has no keys at all. -/
def DFS.isEmpty (d : DFS) : Bool :=
  d.ftd.isNone && d.mtd.isNone && d.lmtd.isNone && d.lastMonth.isNone &&
    d.lastLastMonth.isNone

/-- Column identity of the pivot.  `m1`/`m2` are the two trailing
historical-month columns (named `'%b%y'` of the two previous months in the
source; the names are injective in the run date, so an abstract identifier is
used). -/
inductive Col
  | ftd | mtd | lmtd | growth | projection | m1 | m2
  deriving DecidableEq, Repr

/-- One pivot row before rounding; `none` models a pandas NaN cell (and every
cell of a column that does not exist). -/
structure RowQ where
  ftd : Option ℚ
  mtd : Option ℚ
  lmtd : Option ℚ
  m1 : Option ℚ
  m2 : Option ℚ
  growth : Option ℚ
  proj : Option ℚ
  deriving DecidableEq, Repr

/-- One pivot row after `round(0).astype(int)`. -/
structure RowZ where
  ftd : Option ℤ
  mtd : Option ℤ
  lmtd : Option ℤ
  m1 : Option ℤ
  m2 : Option ℤ
  growth : Option ℤ
  proj : Option ℤ
  deriving DecidableEq, Repr

/-- The finished pivot: explicit column order plus labelled rows. -/
structure TableZ where
  cols : List Col
  rows : List (String × RowZ)
  deriving DecidableEq, Repr

/-- Cell lookup of an unrounded row by column identity. -/
def RowQ.cell (r : RowQ) : Col → Option ℚ
  | .ftd => r.ftd
  | .mtd => r.mtd
  | .lmtd => r.lmtd
  | .m1 => r.m1
  | .m2 => r.m2
  | .growth => r.growth
  | .projection => r.proj

/-- Cell lookup of a rounded row by column identity. -/
def RowZ.cell (r : RowZ) : Col → Option ℤ
  | .ftd => r.ftd
  | .mtd => r.mtd
  | .lmtd => r.lmtd
  | .m1 => r.m1
  | .m2 => r.m2
  | .growth => r.growth
  | .projection => r.proj

/-- `df['iTotalSentSuccess'].sum()`. -/
def sumSent (l : List TRec) : ℤ :=
  (l.map (·.iTotalSentSuccess)).sum

/-- The fixed breakdown categories of the pivot. -/
def trafficTypes : List String := ["CPL", "Enterprise", "OD"]

/-- Cell of an organisation row for one period: absent period ⇒ NaN. -/
def orgCell (df? : Option (List TRec)) (org : String) : Option ℚ :=
  df?.map (fun l => ((sumSent (l.filter (fun r => r.vcORGName == org))) : ℚ))

/-- Cell of a type-breakdown row for one period. -/
def typeCell (df? : Option (List TRec)) (org t : String) : Option ℚ :=
  df?.map (fun l =>
    ((sumSent (l.filter (fun r => r.vcORGName == org && r.vcType == t))) : ℚ))

/-- The organisation row appended for `org`. -/
def mkOrgRow (d : DFS) (org : String) : RowQ :=
  { ftd := orgCell d.ftd org, mtd := orgCell d.mtd org,
    lmtd := orgCell d.lmtd org, m1 := orgCell d.lastMonth org,
    m2 := orgCell d.lastLastMonth org, growth := none, proj := none }

/-- The type-breakdown row appended for `org` and type `t`. -/
def mkTypeRow (d : DFS) (org t : String) : RowQ :=
  { ftd := typeCell d.ftd org t, mtd := typeCell d.mtd org t,
    lmtd := typeCell d.lmtd org t, m1 := typeCell d.lastMonth org t,
    m2 := typeCell d.lastLastMonth org t, growth := none, proj := none }

/-- The period frame feeding each of the five period columns (the derived
columns have no source frame). -/
def colDf (d : DFS) : Col → Option (List TRec)
  | .ftd => d.ftd
  | .mtd => d.mtd
  | .lmtd => d.lmtd
  | .m1 => d.lastMonth
  | .m2 => d.lastLastMonth
  | .growth => none
  | .projection => none

/-- `sorted(dfs['FTD']['vcORGName'].unique())`. -/
def orgsOf (d : DFS) : List String :=
  sortedUnique ((d.ftd.getD []).map (·.vcORGName))

/-- Whether the last-month column exists: some row dictionary must have
carried it into the concatenated frame, so at least one organisation must
exist and `'last_month'` must be a key of `dfs`. -/
def hasM1 (d : DFS) : Bool :=
  !(orgsOf d).isEmpty && d.lastMonth.isSome

/-- Whether the last-last-month column exists. -/
def hasM2 (d : DFS) : Bool :=
  !(orgsOf d).isEmpty && d.lastLastMonth.isSome

/-- The organisation loop: one organisation row followed by the three fixed
type-breakdown rows, for each organisation. -/
def stage1 (d : DFS) : List (String × RowQ) :=
  (orgsOf d).flatMap (fun org =>
    (org, mkOrgRow d org) :: trafficTypes.map (fun t => (t, mkTypeRow d org t)))

/-- Column-wise skip-NaN sum over the rows selected by `keep`, as produced by
`result[sel][col].sum()` for every existing column (`h1`/`h2` record which of
the month columns exist). -/
def sumRows (h1 h2 : Bool) (rows : List (String × RowQ)) (keep : String → Bool) :
    RowQ :=
  let sel := rows.filter (fun p => keep p.1)
  let s := fun (g : RowQ → Option ℚ) => (sel.map (fun p => (g p.2).getD 0)).sum
  { ftd := some (s (·.ftd)), mtd := some (s (·.mtd)), lmtd := some (s (·.lmtd)),
    m1 := if h1 then some (s (·.m1)) else none,
    m2 := if h2 then some (s (·.m2)) else none,
    growth := none, proj := none }

/-- The `Total <vtype>` insertion loop (`result.loc[f'Total {vtype}'] = ...`,
each total summing the rows labelled exactly `vtype` at that point). -/
def addTypeTotals (h1 h2 : Bool) (rows0 : List (String × RowQ)) :
    List (String × RowQ) :=
  trafficTypes.foldl
    (fun rows t => locSet rows ("Total " ++ t) (sumRows h1 h2 rows (fun l => l == t)))
    rows0

/-- `result.loc['G. Total'] = result[~result.index.str.contains('Total')].sum()`. -/
def addGrand (h1 h2 : Bool) (rows : List (String × RowQ)) :
    List (String × RowQ) :=
  locSet rows "G. Total" (sumRows h1 h2 rows (fun l => !(strContains l "Total")))

/-- `result['Growth'] = result['MTD'] - result['LMTD']` for one row (NaN
propagates). -/
def addGrowth (r : RowQ) : RowQ :=
  { r with growth :=
      match r.mtd, r.lmtd with
      | some a, some b => some (a - b)
      | _, _ => none }

/-- `result['Projection'] = result['MTD'] * ratio` for one row. -/
def addProj (ratio : ℚ) (r : RowQ) : RowQ :=
  { r with proj := r.mtd.map (fun a => a * ratio) }

/-- Everything up to (and excluding) `result.round(0).astype(int)`: the whole
arithmetic of the pivot on unrounded values. -/
def trafficCore (today : PyDate) (d : DFS) :
    Except PivErr (List (String × RowQ)) :=
  match d.ftd with
  | none => .error (.keyError "FTD")
  | some _ =>
    let h1 := hasM1 d
    let h2 := hasM2 d
    let rows1 := stage1 d
    let rows2 := addTypeTotals h1 h2 rows1
    let rows3 := addGrand h1 h2 rows2
    let rows4 := rows3.map (fun p => (p.1, addGrowth p.2))
    match projRatio (daysInMonth today.y today.m) today.d with
    | none => .error .zeroDivision
    | some ratio => .ok (rows4.map (fun p => (p.1, addProj ratio p.2)))

/-- A row `astype(int)` accepts: no NaN in any existing column. -/
def rowComplete (h1 h2 : Bool) (r : RowQ) : Bool :=
  r.ftd.isSome && r.mtd.isSome && r.lmtd.isSome &&
    (!h1 || r.m1.isSome) && (!h2 || r.m2.isSome) &&
    r.growth.isSome && r.proj.isSome

/-- `round(0)` on one row (cell-wise round-half-even). -/
def roundRow (r : RowQ) : RowZ :=
  { ftd := r.ftd.map rhe, mtd := r.mtd.map rhe, lmtd := r.lmtd.map rhe,
    m1 := r.m1.map rhe, m2 := r.m2.map rhe,
    growth := r.growth.map rhe, proj := r.proj.map rhe }

/-- `result.round(0).astype(int)`: raises `ValueError` when a NaN survives in
an existing column. -/
def roundStage (h1 h2 : Bool) (rows : List (String × RowQ)) :
    Except PivErr (List (String × RowZ)) :=
  if rows.all (fun p => rowComplete h1 h2 p.2) then
    .ok (rows.map (fun p => (p.1, roundRow p.2)))
  else
    .error .valueError

/-- The column order installed by the final `reindex`. -/
def finalCols : List Col :=
  [Col.ftd, Col.mtd, Col.lmtd, Col.growth, Col.projection, Col.m1, Col.m2]

/-- `traffic.create_traffic_pivot`, with `today` standing for
`datetime.now()`. -/
def create_traffic_pivot (today : PyDate) (d : DFS) : Except PivErr TableZ :=
  if d.isEmpty then .ok ⟨[Col.ftd, Col.mtd, Col.lmtd], []⟩
  else
    match trafficCore today d with
    | .error e => .error e
    | .ok rows =>
      match roundStage (hasM1 d) (hasM2 d) rows with
      | .error e => .error e
      | .ok rowsZ => .ok ⟨finalCols, rowsZ⟩

end Traffic

namespace Analysis

open RCS

/-! ### `analysis.py`

Records carry the columns the analysis tables read.  Metric columns are
modelled by `ℚ`: the functions are defined on arbitrary numeric frames
(the database feeds them integer counters, a special case). -/

/-- A traffic row as consumed by the analysis tables. -/
structure ARec where
  dtDate : PyDate
  vcORGName : String
  vcType : String
  vcAgentName : String
  iTotalSentSuccess : ℚ
  iTotalDelivered : ℚ
  deriving DecidableEq, Repr

/-- An on-demand traffic row. -/
structure ODRec where
  date : PyDate
  aggregator : String
  agent : String
  contentType : String
  parts : ℚ
  received : ℚ
  sent : ℚ
  delivered : ℚ
  deriving DecidableEq, Repr

/-! #### `analysis.create_od_agent_pivot` (Table 2) -/

/-- One row of the OD-agent pivot.  `pivot_table` emits the two value
columns in sorted (alphabetical) order — `iTotalDelivered` before
`iTotalSentSuccess` — and the source then renames them positionally to
`['Sent', 'Delivered']`; the fields below are named after those final column
labels, so `sentCol` aggregates `iTotalDelivered` and `delCol` aggregates
`iTotalSentSuccess`, exactly as the source produces them. -/
structure AgRow where
  sentCol : ℚ
  delCol : ℚ
  deriving DecidableEq, Repr

/-- One leaf cell pair of the OD-agent pivot: the (organisation, agent)
metric sums over the OD rows, each rounded to 2 decimals by the `.round(2)`
applied to the pivot frame. -/
def odAgentCell (df : List ARec) (k : String × String) : AgRow :=
  let sel := (df.filter (fun r => r.vcType == "OD")).filter
    (fun r => r.vcORGName == k.1 && r.vcAgentName == k.2)
  ⟨roundTo 2 ((sel.map (fun r => r.iTotalDelivered)).sum),
   roundTo 2 ((sel.map (fun r => r.iTotalSentSuccess)).sum)⟩

/-- The leaf pivot of `create_od_agent_pivot`: per (organisation, agent)
rounded sums of the OD rows, on the sorted key set. -/
def odAgentLeaves (df : List ARec) : List ((String × String) × AgRow) :=
  (sortedUniqueP ((df.filter (fun r => r.vcType == "OD")).map
      (fun r => (r.vcORGName, r.vcAgentName)))).map
    (fun k => (k, odAgentCell df k))

/-- The `(org, 'Total')` subtotal row value: `pivot.loc[org].sum()`, the
column-wise sum of the organisation's rows of the rounded leaf pivot. -/
def odAgentSub (df : List ARec) (org : String) : AgRow :=
  let sel := (odAgentLeaves df).filter (fun p => p.1.1 == org)
  ⟨(sel.map (fun p => p.2.sentCol)).sum, (sel.map (fun p => p.2.delCol)).sum⟩

/-- The `('Grand Total', '')` row value: the column sums of the whole
rounded leaf pivot. -/
def odAgentGrand (df : List ARec) : AgRow :=
  ⟨((odAgentLeaves df).map (fun p => p.2.sentCol)).sum,
   ((odAgentLeaves df).map (fun p => p.2.delCol)).sum⟩

/-- `analysis.create_od_agent_pivot`: leaf pivot, then one
`(org, 'Total')` subtotal per organisation (summing that organisation's
rows of the rounded leaf pivot), then a `('Grand Total', '')` row summing
the whole rounded leaf pivot.  No rounding is applied after the sums. -/
def create_od_agent_pivot (df : List ARec) :
    List ((String × String) × AgRow) :=
  if df.isEmpty then []
  else
    let od := df.filter (fun r => r.vcType == "OD")
    let withSub := (uniqFirst (od.map (·.vcORGName))).foldl
      (fun rows org => locSet rows (org, "Total") (odAgentSub df org))
      (odAgentLeaves df)
    locSet withSub ("Grand Total", "") (odAgentGrand df)

/-! #### `analysis.create_vctype_daily_pivot` (Summary sheet) -/

/-- The daily-by-type pivot: dated rows of cells aligned with `cols`. -/
structure VTable where
  cols : List String
  rows : List (PyDate × List (Option ℚ))
  deriving DecidableEq, Repr

/-- `analysis.create_vctype_daily_pivot`.  The date×type pivot (no
`fill_value`, so an empty (date, type) combination is NaN) is rounded to 4
decimals, restricted to the types of `['OD', 'Enterprise', 'CPL']` that
occur, extended with skip-NaN `Total_Sent` / `Total_Delivered` columns
computed from the rounded cells, and the MultiIndex columns are flattened to
`f"{vtype} {metric}"` names.  When none of the three types occurs, the
column selection leaves an empty frame and the `xs` lookup of
`'iTotalSentSuccess'` raises a `KeyError`. -/
def create_vctype_daily_pivot (df : List ARec) : Except PivErr VTable :=
  if df.isEmpty then .ok ⟨[], []⟩
  else
    let types := sortedUnique (df.map (·.vcType))
    let chosen := (["OD", "Enterprise", "CPL"].filter (fun t => types.contains t))
    if chosen.isEmpty then .error (.keyError "iTotalSentSuccess")
    else
      let dates := sortedUniqueDates (df.map (·.dtDate))
      let cell := fun (dt : PyDate) (t : String) (metric : ARec → ℚ) =>
        let sel := df.filter (fun r => r.dtDate == dt && r.vcType == t)
        if sel.isEmpty then (none : Option ℚ)
        else some (roundTo 4 ((sel.map metric).sum))
      let rowFor := fun (dt : PyDate) =>
        (chosen.flatMap (fun t =>
          [cell dt t (·.iTotalSentSuccess), cell dt t (·.iTotalDelivered)])) ++
        [some ((chosen.map (fun t => (cell dt t (·.iTotalSentSuccess)).getD 0)).sum),
         some ((chosen.map (fun t => (cell dt t (·.iTotalDelivered)).getD 0)).sum)]
      .ok ⟨(chosen.flatMap (fun t =>
              [t ++ " iTotalSentSuccess", t ++ " iTotalDelivered"])) ++
           [" Total_Sent", " Total_Delivered"],
           dates.map (fun dt => (dt, rowFor dt))⟩

/-! #### `analysis.create_content_type_pivot` (Table 3) -/

/-- One row of the content-type pivot: per-date cells plus the `Total`
column. -/
structure CtRow where
  cells : List ℚ
  total : ℚ
  deriving DecidableEq, Repr

/-- The content-type pivot: date-keyed columns and (agent, content-type)
rows. -/
structure CTable where
  dates : List PyDate
  rows : List ((String × String) × CtRow)
  deriving DecidableEq, Repr

/-- `analysis.create_content_type_pivot`: (agent, content-type)×date pivot
of `Sent` with `fill_value=0`, rounded to 2 decimals, a `Total` column
summing each rounded row, and a `('Grand Total', '')` row summing every
column (including `Total`) of the leaf pivot. -/
def create_content_type_pivot (od : List ODRec) : CTable :=
  if od.isEmpty then ⟨[], []⟩
  else
    let keys := sortedUniqueP (od.map (fun r => (r.agent, r.contentType)))
    let dates := sortedUniqueDates (od.map (·.date))
    let cell := fun (k : String × String) (dt : PyDate) =>
      roundTo 2 (((od.filter (fun r =>
        r.agent == k.1 && r.contentType == k.2 && r.date == dt)).map
          (·.sent)).sum)
    let pivot := keys.map (fun k =>
      let cs := dates.map (cell k)
      (k, (⟨cs, cs.sum⟩ : CtRow)))
    ⟨dates,
     locSet pivot ("Grand Total", "")
       ⟨dates.map (fun dt => ((keys.map (fun k => cell k dt)).sum)),
        (pivot.map (fun p => p.2.total)).sum⟩⟩

/-! #### `analysis.create_detailed_hierarchy` (Table 4) -/

/-- One row of the detailed hierarchy table; `typ` is the `Type` column. -/
structure DRow where
  date : String
  organization : String
  typ : String
  agent : String
  sent : ℚ
  delivered : ℚ
  deriving DecidableEq, Repr

/-- Zero-padded two-digit rendering, for `strftime('%Y-%m-%d')`. -/
def pad2 (n : ℕ) : String :=
  if n < 10 then "0" ++ toString n else toString n

/-- `date.strftime('%Y-%m-%d')` (years of interest have four digits). -/
def fmtDate (t : PyDate) : String :=
  toString t.y ++ "-" ++ pad2 t.m ++ "-" ++ pad2 t.d

/-- `analysis.create_detailed_hierarchy`: nested sorted iteration over
date → organisation → type → agent with per-leaf metric sums, a trailing
all-`'Total'` row, and a final `fillna(0).round(4)`. -/
def create_detailed_hierarchy (df : List ARec) : List DRow :=
  if df.isEmpty then []
  else
    let records := (sortedUniqueDates (df.map (·.dtDate))).flatMap (fun dt =>
      let dateDf := df.filter (fun r => r.dtDate == dt)
      (sortedUnique (dateDf.map (·.vcORGName))).flatMap (fun org =>
        let orgDf := dateDf.filter (fun r => r.vcORGName == org)
        (sortedUnique (orgDf.map (·.vcType))).flatMap (fun vtype =>
          let typeDf := orgDf.filter (fun r => r.vcType == vtype)
          (sortedUnique (typeDf.map (·.vcAgentName))).map (fun agent =>
            let agentDf := typeDf.filter (fun r => r.vcAgentName == agent)
            (⟨fmtDate dt, org, vtype, agent,
              (agentDf.map (·.iTotalSentSuccess)).sum,
              (agentDf.map (·.iTotalDelivered)).sum⟩ : DRow)))))
    let rows := records ++
      [⟨"Total", "Total", "Total", "Total",
        (records.map (·.sent)).sum, (records.map (·.delivered)).sum⟩]
    rows.map (fun r =>
      { r with sent := roundTo 4 r.sent, delivered := roundTo 4 r.delivered })

/-! #### `analysis.create_agg_agent_pivot` / `create_agent_agg_pivot` -/

/-- One row of the aggregator→agent table. -/
structure GRow where
  organization : String
  agent : String
  sent : ℚ
  delivered : ℚ
  deriving DecidableEq, Repr

/-- `analysis.create_agg_agent_pivot` (Table 5). -/
def create_agg_agent_pivot (df : List ARec) : List GRow :=
  if df.isEmpty then []
  else
    let records := (sortedUnique (df.map (·.vcORGName))).flatMap (fun org =>
      let orgDf := df.filter (fun r => r.vcORGName == org)
      (sortedUnique (orgDf.map (·.vcAgentName))).map (fun agent =>
        let agentDf := orgDf.filter (fun r => r.vcAgentName == agent)
        (⟨org, agent,
          (agentDf.map (·.iTotalSentSuccess)).sum,
          (agentDf.map (·.iTotalDelivered)).sum⟩ : GRow)))
    let rows := records ++
      [⟨"Total", "Total",
        (records.map (·.sent)).sum, (records.map (·.delivered)).sum⟩]
    rows.map (fun r =>
      { r with sent := roundTo 4 r.sent, delivered := roundTo 4 r.delivered })

/-- One row of the agent→aggregator table. -/
structure BRow where
  agent : String
  organization : String
  sent : ℚ
  delivered : ℚ
  deriving DecidableEq, Repr

/-- `analysis.create_agent_agg_pivot` (Table 6). -/
def create_agent_agg_pivot (df : List ARec) : List BRow :=
  if df.isEmpty then []
  else
    let records := (sortedUnique (df.map (·.vcAgentName))).flatMap (fun agent =>
      let agentDf := df.filter (fun r => r.vcAgentName == agent)
      (sortedUnique (agentDf.map (·.vcORGName))).map (fun org =>
        let orgDf := agentDf.filter (fun r => r.vcORGName == org)
        (⟨agent, org,
          (orgDf.map (·.iTotalSentSuccess)).sum,
          (orgDf.map (·.iTotalDelivered)).sum⟩ : BRow)))
    let rows := records ++
      [⟨"Total", "Total",
        (records.map (·.sent)).sum, (records.map (·.delivered)).sum⟩]
    rows.map (fun r =>
      { r with sent := roundTo 4 r.sent, delivered := roundTo 4 r.delivered })

/-! #### `analysis.create_volume_analysis` (Table 7) -/

/-- One row of the volume-analysis table: per-date cells, the `Total`
column, and the `Projection` column. -/
structure VolRow where
  cells : List ℚ
  total : ℚ
  projection : ℚ
  deriving DecidableEq, Repr

/-- The volume-analysis table. -/
structure VolTable where
  dates : List PyDate
  rows : List ((String × String) × VolRow)
  deriving DecidableEq, Repr

/-- Column-wise sum of equal-length cell lists. -/
def sumCells : List (List ℚ) → List ℚ
  | [] => []
  | [r] => r
  | r :: rs => (sumCells rs).zipWith (fun a b => a + b) r

/-- `analysis.create_volume_analysis`, with `today` standing for
`datetime.now()`.  Volumes: `RCS_Vol = Delivered`, `SMS_Vol = Parts *
Delivered`; `'Single Part'` is `ContentType == 'Basic'`, `'Multipart'` the
rest.  The (Category, PartType)×date pivot is extended with a `Total`
column, a `Projection` column (`Total * days_in_month / today.day`, an
unguarded division), per-category `('<cat>', 'Total')` rows summing that
category's two leaf rows column-wise, and a final `round(2)`. -/
def create_volume_analysis (today : PyDate) (od : List ODRec) :
    Except PivErr VolTable :=
  if od.isEmpty then .ok ⟨[], []⟩
  else
    let dates := sortedUniqueDates (od.map (·.date))
    let vol := fun (cat pt : String) (dt : PyDate) =>
      let dd := od.filter (fun r => r.date == dt)
      let sel := if pt == "Single Part" then
          dd.filter (fun r => r.contentType == "Basic")
        else
          dd.filter (fun r => !(r.contentType == "Basic"))
      if cat == "RCS Vol" then (sel.map (·.delivered)).sum
      else (sel.map (fun r => r.parts * r.delivered)).sum
    -- the pivot sorts its (Category, PartType) index lexicographically
    let keys : List (String × String) :=
      [("RCS Vol", "Multipart"), ("RCS Vol", "Single Part"),
       ("SMS Vol", "Multipart"), ("SMS Vol", "Single Part")]
    match projRatio (daysInMonth today.y today.m) today.d with
    | none => .error .zeroDivision
    | some ratio =>
      let baseRows := keys.map (fun k =>
        let cs := dates.map (vol k.1 k.2)
        (k, (⟨cs, cs.sum, cs.sum * ratio⟩ : VolRow)))
      let withTot := (["RCS Vol", "SMS Vol"]).foldl
        (fun rows cat =>
          let sel := rows.filter (fun p => p.1.1 == cat)
          locSet rows (cat, "Total")
            ⟨sumCells (sel.map (fun p => p.2.cells)),
             (sel.map (fun p => p.2.total)).sum,
             (sel.map (fun p => p.2.projection)).sum⟩)
        baseRows
      .ok ⟨dates, withTot.map (fun p =>
        (p.1, (⟨p.2.cells.map (roundTo 2), roundTo 2 p.2.total,
               roundTo 2 p.2.projection⟩ : VolRow)))⟩

/-! #### `analysis.create_traffic_pivot` / `analysis.create_od_pivot`

Both bodies consist of the empty-input guard, a comment placeholder
`# ...existing pivot creation code...` where the pivot was once built, and a
zero-row filter over a variable `result` that is never defined: every
non-empty input raises `NameError: name 'result' is not defined`. -/

/-- The `dfs` period dictionary of OD frames. -/
structure ODDfs where
  ftd : Option (List ODRec)
  mtd : Option (List ODRec)
  lmtd : Option (List ODRec)
  lastMonth : Option (List ODRec)
  lastLastMonth : Option (List ODRec)
  deriving DecidableEq, Repr

/-- Python's `not dfs` for the OD dictionary. -/
def ODDfs.isEmpty (d : ODDfs) : Bool :=
  d.ftd.isNone && d.mtd.isNone && d.lmtd.isNone && d.lastMonth.isNone &&
    d.lastLastMonth.isNone

/-- `analysis.create_traffic_pivot`. -/
def create_traffic_pivot (d : Traffic.DFS) : Except PivErr Traffic.TableZ :=
  if d.isEmpty then .ok ⟨[Traffic.Col.ftd, Traffic.Col.mtd, Traffic.Col.lmtd], []⟩
  else .error (.nameError "result")

/-- `analysis.create_od_pivot`. -/
def create_od_pivot (d : ODDfs) : Except PivErr Traffic.TableZ :=
  if d.isEmpty then .ok ⟨[Traffic.Col.ftd, Traffic.Col.mtd, Traffic.Col.lmtd], []⟩
  else .error (.nameError "result")

end Analysis

/-! ## Concrete inputs and tables used by the claim theorems -/

namespace Fixtures

open RCS

/-- A single traffic record: organisation `"A"`, category `"OD"`, 100 sent. -/
def recA : Traffic.TRec := ⟨"A", "OD", 100⟩

/-- A run date: 2025-10-10 (October has 31 days, 10 days elapsed). -/
def todayRun : PyDate := ⟨2025, 10, 10⟩

/-- Period dictionary with the single record in each of FTD/MTD/LMTD. -/
def dfsC1 : Traffic.DFS := ⟨some [recA], some [recA], some [recA], none, none⟩

/-- Period dictionary containing only the MTD key. -/
def dfsC3 : Traffic.DFS := ⟨none, some [recA], none, none, none⟩

/-- Period dictionary whose FTD/MTD/LMTD frames are present but empty. -/
def dfsW : Traffic.DFS := ⟨some [], some [], some [], none, none⟩

/-- The all-zero output row of the pivot on `dfsW`. -/
def zRow : Traffic.RowZ := ⟨some 0, some 0, some 0, none, none, some 0, some 0⟩

/-- The pivot produced from `dfsW`: only the three type totals and the grand
total, all zero. -/
def tblW : Traffic.TableZ :=
  ⟨Traffic.finalCols,
   [("Total CPL", zRow), ("Total Enterprise", zRow), ("Total OD", zRow),
    ("G. Total", zRow)]⟩

/-- An OD traffic record for the analysis tables. -/
def arecW : Analysis.ARec := ⟨⟨2025, 10, 5⟩, "A", "OD", "x", 1, 2⟩

/-- Two OD records of organisation `"A"` whose `Sent`/`Delivered` values are
1/250 = 0.004 each: each rounds to 0 at two decimals while their sum rounds
to 0.01. -/
def arec5a : Analysis.ARec := ⟨⟨2025, 10, 5⟩, "A", "OD", "x", 1/250, 1/250⟩

/-- Second record of the rounding counterexample (different agent). -/
def arec5b : Analysis.ARec := ⟨⟨2025, 10, 5⟩, "A", "OD", "y", 1/250, 1/250⟩

/-- A small mapping table: agent `"a1"` maps to category `"OD"`. -/
def mapW : App.TypeMapping := [("a1", some "OD")]

end Fixtures

/-! ## Proof toolkit -/

namespace RCS

theorem locSet_of_not_mem {K V : Type} [BEq K] (rows : List (K × V)) (k : K)
    (v : V) (h : rows.any (fun p => p.1 == k) = false) :
    locSet rows k v = rows ++ [(k, v)] := by
  simp [locSet, h]

theorem uniqFirst_aux_nodup {α : Type} [DecidableEq α] (l : List α)
    (acc : List α) (h : acc.Nodup) :
    (l.foldl (fun acc x => if x ∈ acc then acc else acc ++ [x]) acc).Nodup := by
  induction l generalizing acc with
  | nil => simpa using h
  | cons x xs ih =>
    by_cases hx : x ∈ acc
    · simpa [hx] using ih acc h
    · have : (acc ++ [x]).Nodup := by
        simp [List.nodup_append, h, hx]
      simpa [hx] using ih (acc ++ [x]) this

theorem uniqFirst_nodup {α : Type} [DecidableEq α] (l : List α) :
    (uniqFirst l).Nodup :=
  uniqFirst_aux_nodup l [] (by simp)

theorem rhe_intCast (n : ℤ) : rhe (n : ℚ) = n := by
  simp [rhe]

theorem roundTo_intCast (p : ℕ) (n : ℤ) :
    roundTo p ((n : ℚ)) = (n : ℚ) := by
  have h10 : ((10 : ℚ) ^ p) ≠ 0 := by positivity
  have : ((n : ℚ)) * (10 : ℚ) ^ p = ((n * (10 : ℤ) ^ p : ℤ) : ℚ) := by
    push_cast; ring
  rw [roundTo, this, rhe_intCast]
  push_cast
  field_simp

theorem mem_uniqFirst_aux {α : Type} [DecidableEq α] (l : List α) (acc : List α)
    (x : α) :
    (x ∈ l.foldl (fun acc y => if y ∈ acc then acc else acc ++ [y]) acc) ↔
      x ∈ acc ∨ x ∈ l := by
  induction l generalizing acc with
  | nil => simp
  | cons y ys ih =>
    by_cases hy : y ∈ acc
    · rw [List.foldl_cons, if_pos hy, ih]
      constructor
      · rintro (h | h)
        · exact Or.inl h
        · exact Or.inr (List.mem_cons_of_mem _ h)
      · rintro (h | h)
        · exact Or.inl h
        · rcases List.mem_cons.mp h with rfl | h
          · exact Or.inl hy
          · exact Or.inr h
    · rw [List.foldl_cons, if_neg hy, ih]
      constructor
      · rintro (h | h)
        · rcases List.mem_append.mp h with h | h
          · exact Or.inl h
          · simp at h
            exact Or.inr (by simp [h])
        · exact Or.inr (List.mem_cons_of_mem _ h)
      · rintro (h | h)
        · exact Or.inl (List.mem_append.mpr (Or.inl h))
        · rcases List.mem_cons.mp h with rfl | h
          · exact Or.inl (List.mem_append.mpr (Or.inr (by simp)))
          · exact Or.inr h

theorem mem_uniqFirst {α : Type} [DecidableEq α] (l : List α) (x : α) :
    x ∈ uniqFirst l ↔ x ∈ l := by
  rw [uniqFirst, mem_uniqFirst_aux]
  simp

theorem insertLe_perm {α : Type} (le : α → α → Bool) (x : α) (l : List α) :
    List.Perm (insertLe le x l) (x :: l) := by
  induction l with
  | nil => rfl
  | cons y ys ih =>
    by_cases h : le x y
    · simp [insertLe, h]
    · simp only [insertLe, h]
      simp only [Bool.false_eq_true, if_false]
      exact ((ih.cons y).trans (List.Perm.swap x y ys))

theorem insSort_perm {α : Type} (le : α → α → Bool) (l : List α) :
    List.Perm (insSort le l) l := by
  induction l with
  | nil => rfl
  | cons x xs ih =>
    exact (insertLe_perm le x (insSort le xs)).trans (ih.cons x)

theorem mem_insSort {α : Type} (le : α → α → Bool) (l : List α) (x : α) :
    x ∈ insSort le l ↔ x ∈ l :=
  (insSort_perm le l).mem_iff

theorem mem_sortedUniqueP (l : List (String × String)) (k : String × String) :
    k ∈ sortedUniqueP l ↔ k ∈ l := by
  rw [sortedUniqueP, mem_insSort, mem_uniqFirst]

theorem filter_label_map {A B : Type} (f : A → B) (l : List (String × A))
    (p : String → Bool) :
    ((l.map (fun q => (q.1, f q.2))).filter (fun q => p q.1)) =
      (l.filter (fun q => p q.1)).map (fun q => (q.1, f q.2)) := by
  induction l with
  | nil => rfl
  | cons a as ih =>
    by_cases h : p a.1 <;> simp [h, ih]

theorem find_label_map {A B : Type} (f : A → B) (l : List (String × A))
    (p : String → Bool) :
    ((l.map (fun q => (q.1, f q.2))).find? (fun q => p q.1)) =
      (l.find? (fun q => p q.1)).map (fun q => (q.1, f q.2)) := by
  induction l with
  | nil => rfl
  | cons a as ih =>
    by_cases h : p a.1 <;> simp [List.find?_cons, h, ih]

end RCS

/-! ## Claims -/

/-- C1: the claim states that the grand-total row equals the sum of the
top-level (organisation) rows only, with breakdown rows excluded so that no
record is counted twice.  In the code (`traffic.py` line 118) only rows whose
label contains `'Total'` are excluded, while the per-type breakdown rows
(labelled `'CPL'`/`'Enterprise'`/`'OD'`) are included: a single record of 100
sent messages, present in each period frame, yields a `'G. Total'` FTD cell
of 200, twice the 100 of the top-level rows. -/
theorem C1_grand_total_double_counts :
    (Traffic.create_traffic_pivot Fixtures.todayRun Fixtures.dfsC1).toOption.map
      (fun T =>
        (((T.rows.find? (fun p => p.1 == "G. Total")).map (fun p => p.2.ftd)),
          ((T.rows.filter (fun p =>
            !(RCS.strContains p.1 "Total") &&
              !(Traffic.trafficTypes.contains p.1))).map
                (fun p => p.2.ftd.getD 0)).sum)) =
      some (some (some 200), 100) ∧ (200 : ℤ) ≠ 100 := by
  constructor
  · simp +decide only [Traffic.create_traffic_pivot, Traffic.trafficCore,
      Fixtures.dfsC1, Fixtures.todayRun, Traffic.DFS.isEmpty, Traffic.stage1,
      Traffic.orgsOf, RCS.sortedUnique, RCS.uniqFirst, RCS.insSort,
      RCS.insertLe, Traffic.hasM1, Traffic.hasM2, Traffic.addTypeTotals,
      Traffic.addGrand, Traffic.addGrowth, Traffic.addProj, Traffic.sumRows,
      RCS.locSet, RCS.strContains, RCS.chSub, RCS.chPre, RCS.projRatio,
      RCS.daysInMonth, RCS.isLeap, Traffic.roundStage, Traffic.rowComplete,
      Traffic.roundRow, Traffic.finalCols, List.filter, List.foldl,
      Traffic.sumSent, List.flatMap, Fixtures.recA, List.map, List.any,
      List.all, List.append, List.sum, List.foldr, Except.toOption,
      List.find?, Traffic.trafficTypes, List.contains, Traffic.mkOrgRow,
      Traffic.mkTypeRow, Traffic.orgCell, Traffic.typeCell, Option.map,
      Option.getD, Option.isSome]
    norm_num [RCS.rhe]
    decide
  · decide

/-- C2: the claim states that for every reference date the LMTD end day is
clamped to `min(day_of(reference_date - 1), last day of previous month)`, so
that reference date March 31 yields February 28 and no invalid date is ever
produced.  The code (`app.py` line 89) executes
`last_month.replace(day=yesterday.day)` with no clamp: for reference date
2025-03-31 it asks February for day 30 and raises `ValueError` (modelled by
`none`), while an unproblematic date such as 2025-03-15 resolves normally. -/
theorem C2_lmtd_end_unclamped :
    App.get_date_ranges ⟨2025, 3, 31⟩ = none ∧
    App.get_date_ranges ⟨2025, 3, 15⟩ =
      some ⟨(⟨2025, 3, 14⟩, ⟨2025, 3, 14⟩), (⟨2025, 3, 1⟩, ⟨2025, 3, 14⟩),
            (⟨2025, 2, 1⟩, ⟨2025, 2, 14⟩)⟩ := by
  constructor
  · decide
  · decide

/-- C3: the claim states that a period absent from the input mapping
contributes all-zero values instead of raising, so that `{'MTD': [...]}`
alone yields `Growth = MTD`.  The code reads `dfs['FTD']` unconditionally
(`traffic.py` line 73), so the same input raises `KeyError: 'FTD'`
(`app.create_rcs_pivot` analogously raises `KeyError: 'LMTD'` at
`pivot_df['MTD'] - pivot_df['LMTD']`). -/
theorem C3_missing_period_raises :
    Traffic.create_traffic_pivot Fixtures.todayRun Fixtures.dfsC3 =
      .error (.keyError "FTD") := by
  decide

/-- C4 counterexample: the claim states that when days elapsed is 0 the
projection is 0 rather than an exception because the division is explicitly
guarded.  The code computes `days_in_month / days_completed` with no guard:
a zero divisor raises `ZeroDivisionError` (modelled by `none`), it does not
produce 0. -/
theorem C4_zero_days_raises :
    RCS.projectionCell 1 30 0 = none ∧ RCS.projectionCell 1 30 0 ≠ some 0 := by
  constructor
  · decide
  · decide

/-- C4 (amended): the Projection column equals the MTD value times
(days in the current month / days elapsed), where days elapsed is
`datetime.now().day` — the run date's day-of-month, which is at least 1 for
every valid date.  The division can therefore never be by zero on a real run
and no explicit guard exists (or is needed) in the code. -/
theorem C4_projection_formula (today : RCS.PyDate) (h : today.Valid)
    (mtdVal : ℚ) :
    RCS.projectionCell mtdVal (RCS.daysInMonth today.y today.m) today.d =
      some (mtdVal * ((RCS.daysInMonth today.y today.m : ℚ) / (today.d : ℚ))) := by
  have hd : today.d ≠ 0 := by
    have := h.2.2.2.1
    omega
  simp [RCS.projectionCell, RCS.projRatio, hd]

/-- Witness for the amended C4 at the concrete run date 2025-10-10. -/
theorem C4_projection_formula_witness :
    RCS.projectionCell 2 (RCS.daysInMonth 2025 10) 10 =
      some (2 * ((RCS.daysInMonth 2025 10 : ℚ) / ((10 : ℕ) : ℚ))) :=
  C4_projection_formula ⟨2025, 10, 10⟩ (by decide) 2

/-- C7 counterexample: the claim states that the resolved category of every
fetched traffic record equals the mapping entry for its agent id whenever
that entry is present and non-empty.  In `traffic.fetch_traffic_data` the
mapping is consulted only for rows whose own category is null or empty: a
record whose existing category is `"CPL"` keeps it even though the mapping
maps its agent to `"OD"` (while `app.apply_type_mapping` would return
`"OD"`). -/
theorem C7_fetch_keeps_existing_category :
    Traffic.resolveFetch (some "CPL") "a1" Fixtures.mapW = "CPL" ∧
    App.resolveApply "a1" Fixtures.mapW = "OD" ∧
    ("CPL" : String) ≠ "OD" := by
  refine ⟨by decide, by decide, by decide⟩

/-- C7 (amended): `app.apply_type_mapping` resolves every record's category
from the mapping alone — the entry when present and non-null, the fallback
`'Enterprise'` otherwise — discarding any prior category; the update step in
`traffic.fetch_traffic_data` consults the mapping (with the same fallback)
only when the record's own category is null or the empty string, and keeps
any other existing category.  Neither resolution raises. -/
theorem C7_category_resolution (v0 : Option String) (aid : String)
    (m : App.TypeMapping) :
    (App.resolveApply aid m =
      match m.lookup aid with
      | some (some v) => v
      | some none => "Enterprise"
      | none => "Enterprise") ∧
    (v0 = none ∨ v0 = some "" →
      Traffic.resolveFetch v0 aid m = App.resolveApply aid m) ∧
    (∀ s : String, s ≠ "" → Traffic.resolveFetch (some s) aid m = s) := by
  refine ⟨?_, ?_, ?_⟩
  · rcases h : m.lookup aid with _ | v
    · simp [App.resolveApply, h]
    · rcases v with _ | s <;> simp [App.resolveApply, h]
  · intro h
    simp [Traffic.resolveFetch, h]
  · intro s hs
    have h : ¬((some s : Option String) = none ∨ (some s : Option String) = some "") := by
      simp [hs]
    rw [Traffic.resolveFetch, if_neg h]
    rfl

/-- Witness for the amended C7 on a concrete mapping: an unmapped agent
falls back to `'Enterprise'`, a null category defers to the mapping, and an
existing non-empty category survives. -/
theorem C7_category_resolution_witness :
    App.resolveApply "a2" Fixtures.mapW = "Enterprise" ∧
    Traffic.resolveFetch none "a2" Fixtures.mapW =
      App.resolveApply "a2" Fixtures.mapW ∧
    Traffic.resolveFetch (some "CPL") "a2" Fixtures.mapW = "CPL" := by
  obtain ⟨h1, h2, h3⟩ := C7_category_resolution none "a2" Fixtures.mapW
  exact ⟨h1.trans (by decide), h2 (Or.inl rfl), h3 "CPL" (by decide)⟩

/-- C9: `analysis.create_traffic_pivot` and `analysis.create_od_pivot`
return a value only on an empty input mapping (the empty frame with columns
FTD/MTD/LMTD); every non-empty input reaches the zero-row filter over the
undefined name `result` and raises `NameError`. -/
theorem C9_undefined_result (d : Traffic.DFS) (od : Analysis.ODDfs) :
    (d.isEmpty = true →
      Analysis.create_traffic_pivot d =
        .ok ⟨[Traffic.Col.ftd, Traffic.Col.mtd, Traffic.Col.lmtd], []⟩) ∧
    (d.isEmpty = false →
      Analysis.create_traffic_pivot d = .error (.nameError "result")) ∧
    (od.isEmpty = true →
      Analysis.create_od_pivot od =
        .ok ⟨[Traffic.Col.ftd, Traffic.Col.mtd, Traffic.Col.lmtd], []⟩) ∧
    (od.isEmpty = false →
      Analysis.create_od_pivot od = .error (.nameError "result")) := by
  refine ⟨?_, ?_, ?_, ?_⟩ <;> intro h <;>
    simp [Analysis.create_traffic_pivot, Analysis.create_od_pivot, h]

/-- Witness for C9: a non-empty traffic mapping raises the `NameError`, the
empty OD mapping returns the empty frame. -/
theorem C9_undefined_result_witness :
    Analysis.create_traffic_pivot Fixtures.dfsC1 = .error (.nameError "result") ∧
    Analysis.create_od_pivot ⟨none, none, none, none, none⟩ =
      .ok ⟨[Traffic.Col.ftd, Traffic.Col.mtd, Traffic.Col.lmtd], []⟩ := by
  refine ⟨?_, ?_⟩
  · exact (C9_undefined_result Fixtures.dfsC1 ⟨none, none, none, none, none⟩).2.1
      (by decide)
  · exact (C9_undefined_result Fixtures.dfsC1 ⟨none, none, none, none, none⟩).2.2.1
      (by decide)

/-- C10: every pivot-building function of `analysis.py` maps an empty input
frame to an empty output (at most fixed header columns) and raises no
exception: each body opens with an `if df.empty: return ...` guard that
short-circuits before any fallible step. -/
theorem C10_empty_input_empty_output :
    Analysis.create_vctype_daily_pivot [] = .ok ⟨[], []⟩ ∧
    Analysis.create_od_agent_pivot [] = [] ∧
    Analysis.create_content_type_pivot [] = ⟨[], []⟩ ∧
    Analysis.create_detailed_hierarchy [] = [] ∧
    Analysis.create_agg_agent_pivot [] = [] ∧
    Analysis.create_agent_agg_pivot [] = [] ∧
    ∀ today : RCS.PyDate, Analysis.create_volume_analysis today [] = .ok ⟨[], []⟩ := by
  refine ⟨rfl, rfl, rfl, rfl, rfl, rfl, fun today => rfl⟩

/-- Witness for C10 instantiating the quantified conjunct at a concrete run
date. -/
theorem C10_empty_input_empty_output_witness :
    Analysis.create_volume_analysis ⟨2025, 10, 10⟩ [] = .ok ⟨[], []⟩ :=
  C10_empty_input_empty_output.2.2.2.2.2.2 ⟨2025, 10, 10⟩

/-- Evaluation of the traffic pivot on the empty-frames dictionary `dfsW`:
only the three type-total rows and the grand total remain, all zero. -/
theorem eval_pivot_dfsW :
    Traffic.create_traffic_pivot Fixtures.todayRun Fixtures.dfsW =
      .ok Fixtures.tblW := by
  simp +decide only [Traffic.create_traffic_pivot, Traffic.trafficCore,
    Fixtures.dfsW, Fixtures.todayRun, Fixtures.tblW, Fixtures.zRow,
    Traffic.DFS.isEmpty, Traffic.stage1, Traffic.orgsOf, RCS.sortedUnique,
    RCS.uniqFirst, RCS.insSort, RCS.insertLe, Traffic.hasM1, Traffic.hasM2,
    Traffic.addTypeTotals, Traffic.addGrand, Traffic.addGrowth,
    Traffic.addProj, Traffic.sumRows, RCS.locSet, RCS.strContains, RCS.chSub,
    RCS.chPre, RCS.projRatio, RCS.daysInMonth, RCS.isLeap,
    Traffic.roundStage, Traffic.rowComplete, Traffic.roundRow,
    Traffic.finalCols, List.filter, List.foldl, Traffic.sumSent,
    List.flatMap, List.map, List.any, List.all, List.append, List.sum,
    List.foldr]
  norm_num [RCS.rhe]
  decide

/-- C8: the finished traffic pivot always presents its columns in the fixed
canonical order FTD, MTD, LMTD, Growth, Projection, then the two trailing
historical-month columns — installed by the final `reindex` — and an empty
input dictionary yields the bare FTD/MTD/LMTD header.  The pipeline is a
pure function of its inputs, so the order is identical across runs. -/
theorem C8_column_order (today : RCS.PyDate) (d : Traffic.DFS)
    (T : Traffic.TableZ)
    (h : Traffic.create_traffic_pivot today d = .ok T) :
    T.cols = if d.isEmpty then [Traffic.Col.ftd, Traffic.Col.mtd, Traffic.Col.lmtd]
      else Traffic.finalCols := by
  unfold Traffic.create_traffic_pivot at h
  by_cases he : d.isEmpty = true
  · rw [if_pos he] at h
    rw [if_pos he, ← Except.ok.inj h]
  · rw [if_neg he] at h
    rw [if_neg (by simpa using he)]
    rcases hc : Traffic.trafficCore today d with e | rows
    · rw [hc] at h
      exact absurd h (by simp)
    · rw [hc] at h
      dsimp only at h
      rcases hr : Traffic.roundStage (Traffic.hasM1 d) (Traffic.hasM2 d) rows
          with e | rz
      · rw [hr] at h
        exact absurd h (by simp)
      · rw [hr] at h
        dsimp only at h
        rw [← Except.ok.inj h]

/-- Witness for C8 on the empty-frames dictionary. -/
theorem C8_column_order_witness :
    Fixtures.tblW.cols =
      if Fixtures.dfsW.isEmpty then
        [Traffic.Col.ftd, Traffic.Col.mtd, Traffic.Col.lmtd]
      else Traffic.finalCols :=
  C8_column_order Fixtures.todayRun Fixtures.dfsW Fixtures.tblW eval_pivot_dfsW

/-! ## Structure of `create_od_agent_pivot` -/

namespace Analysis

open RCS

theorem foldl_locSet_eq_append {V : Type} (orgs : List String)
    (rows : List ((String × String) × V)) (f : String → V)
    (hn : orgs.Nodup)
    (h : ∀ org ∈ orgs, ∀ p ∈ rows, p.1 ≠ (org, "Total")) :
    orgs.foldl (fun rs org => locSet rs (org, "Total") (f org)) rows =
      rows ++ orgs.map (fun org => ((org, "Total"), f org)) := by
  induction orgs generalizing rows with
  | nil => simp
  | cons o os ih =>
    have hany : rows.any (fun p => p.1 == (o, "Total")) = false := by
      rw [List.any_eq_false]
      intro p hp
      simpa using h o (by simp) p hp
    rw [List.foldl_cons, locSet_of_not_mem _ _ _ hany,
      ih (rows ++ [((o, "Total"), f o)]) (List.Nodup.of_cons hn) ?_]
    · simp
    · intro org ho p hp
      rcases List.mem_append.mp hp with hp | hp
      · exact h org (List.mem_cons_of_mem _ ho) p hp
      · have hp' : p = ((o, "Total"), f o) := by simpa using hp
        subst hp'
        intro hc
        have : o = org := congrArg Prod.fst hc
        exact (List.nodup_cons.mp hn).1 (this ▸ ho)

/-- Keys of the leaf pivot are (organisation, agent) pairs of OD records. -/
theorem odAgentLeaves_key_mem (df : List ARec) (p : (String × String) × AgRow)
    (hp : p ∈ odAgentLeaves df) :
    p.1 ∈ (df.filter (fun r => r.vcType == "OD")).map
      (fun r => (r.vcORGName, r.vcAgentName)) := by
  unfold odAgentLeaves at hp
  rcases List.mem_map.mp hp with ⟨k, hk, rfl⟩
  exact (mem_sortedUniqueP _ _).mp hk

/-- The full row layout of `create_od_agent_pivot` on a non-empty frame with
no agent literally named `'Total'` and no organisation literally named
`'Grand Total'` among the OD rows: the rounded leaf pivot, then one
appended subtotal per organisation, then the grand-total row. -/
theorem od_agent_pivot_shape (df : List ARec) (hne : df ≠ [])
    (hag : ∀ r ∈ df.filter (fun r => r.vcType == "OD"), r.vcAgentName ≠ "Total")
    (hgo : ∀ r ∈ df.filter (fun r => r.vcType == "OD"),
      r.vcORGName ≠ "Grand Total") :
    create_od_agent_pivot df =
      odAgentLeaves df ++
      (uniqFirst ((df.filter (fun r => r.vcType == "OD")).map
          (fun r => r.vcORGName))).map (fun org =>
        ((org, "Total"), odAgentSub df org)) ++
      [(("Grand Total", ""), odAgentGrand df)] := by
  unfold create_od_agent_pivot
  rw [if_neg (by simpa using hne)]
  dsimp only
  rw [foldl_locSet_eq_append _ _ _ (uniqFirst_nodup _) ?hnofold]
  case hnofold =>
    intro org ho p hp
    have hk := odAgentLeaves_key_mem df p hp
    rcases List.mem_map.mp hk with ⟨r, hr, hkey⟩
    intro hc
    have : p.1.2 = "Total" := by rw [hc]
    rw [← hkey] at this
    exact hag r hr this
  have hany2 : ((odAgentLeaves df ++
      (uniqFirst ((df.filter (fun r => r.vcType == "OD")).map
        (fun x => x.vcORGName))).map
          (fun org => ((org, "Total"), odAgentSub df org))).any
        (fun p => p.1 == ("Grand Total", ""))) = false := by
    rw [List.any_eq_false]
    intro p hp
    rcases List.mem_append.mp hp with hp | hp
    · have hk := odAgentLeaves_key_mem df p hp
      rcases List.mem_map.mp hk with ⟨r, hr, hkey⟩
      simp only [beq_iff_eq]
      intro hc
      have : p.1.1 = "Grand Total" := by rw [hc]
      rw [← hkey] at this
      exact hgo r hr this
    · rcases List.mem_map.mp hp with ⟨org, ho, rfl⟩
      simp only [beq_iff_eq]
      intro hc
      have h2 : ("Total" : String) = "" := congrArg Prod.snd hc
      exact absurd h2 (by decide)
  rw [locSet_of_not_mem _ _ _ hany2, List.append_assoc]

/-- Finding a key in the mapped list of distinct keys. -/
theorem find_map_key {V : Type} (keys : List (String × String))
    (f : String × String → V) (k : String × String) (hn : keys.Nodup)
    (hk : k ∈ keys) :
    (keys.map (fun k => (k, f k))).find? (fun p => p.1 == k) = some (k, f k) := by
  induction keys with
  | nil => cases hk
  | cons a as ih =>
    rcases List.mem_cons.mp hk with rfl | hk'
    · simp [List.find?_cons]
    · have hne : (a == k) = false := by
        simp only [beq_eq_false_iff_ne]
        intro hc
        exact (List.nodup_cons.mp hn).1 (hc ▸ hk')
      simp only [List.map_cons, List.find?_cons, hne]
      exact ih (List.Nodup.of_cons hn) hk'

/-- No key of the mapped list matches: the search continues past it. -/
theorem find_map_none {A V : Type} [BEq A] (l : List (A × V)) (k : A)
    (h : ∀ p ∈ l, (p.1 == k) = false) :
    l.find? (fun p => p.1 == k) = none := by
  rw [List.find?_eq_none]
  intro p hp
  simp [h p hp]

end Analysis

namespace RCS

theorem sortedUniqueP_nodup (l : List (String × String)) :
    (sortedUniqueP l).Nodup :=
  ((insSort_perm lexLe (uniqFirst l)).nodup_iff).mpr (uniqFirst_nodup l)

end RCS

/-- C5 counterexample: the claim states that in every produced summary table
numeric values are rounded only after all arithmetic (sums included) has
completed, to the variant's precision.  `analysis.create_od_agent_pivot`
(precision 2) rounds the leaf pivot first and then sums it: two OD rows of
organisation `'A'` with `iTotalSentSuccess = 0.004` each produce an
`('A', 'Total')` subtotal of 0, while rounding after the sum would give
`round2(0.008) = 0.01`. -/
theorem C5_round_before_sum_counterexample :
    ((Analysis.create_od_agent_pivot [Fixtures.arec5a, Fixtures.arec5b]).find?
        (fun p => p.1 == ("A", "Total"))).map (fun p => p.2.delCol) =
      some 0 ∧
    RCS.roundTo 2 (Fixtures.arec5a.iTotalSentSuccess +
      Fixtures.arec5b.iTotalSentSuccess) = 1/100 ∧
    (0 : ℚ) ≠ 1/100 := by
  refine ⟨?_, ?_, by norm_num⟩
  · have hkeys : RCS.sortedUniqueP ((([Fixtures.arec5a, Fixtures.arec5b].filter
        (fun r => r.vcType == "OD")).map
          (fun r => (r.vcORGName, r.vcAgentName)))) =
        [("A", "x"), ("A", "y")] := by decide
    have h1 : ((("A", "x") : String × String) == ("A", "Total")) = false := by
      decide
    have h2 : ((("A", "y") : String × String) == ("A", "Total")) = false := by
      decide
    have h3 : ((("A", "Total") : String × String) == ("A", "Total")) = true := by
      decide
    simp +decide only [Analysis.create_od_agent_pivot, Analysis.odAgentLeaves,
      Analysis.odAgentCell, Analysis.odAgentSub, Analysis.odAgentGrand,
      Fixtures.arec5a, Fixtures.arec5b, hkeys, h1, h2, h3, RCS.uniqFirst,
      RCS.locSet, List.filter, List.isEmpty, List.map, List.foldl, List.any,
      List.append, List.sum, List.foldr, List.find?, RCS.roundTo, Option.map]
    norm_num [RCS.rhe]
  · simp only [Fixtures.arec5a, Fixtures.arec5b]
    norm_num [RCS.roundTo, RCS.rhe]

/-- C5 (amended): rounding placement differs by report variant.  In
`traffic.create_traffic_pivot` (and the identical `od.create_od_pivot`)
every successful run factors as the full unrounded arithmetic pipeline —
sums, totals, growth, projection — followed by one final cell-wise
`round(0)`; scaling, where applied, happens at fetch time before any
rounding.  In `analysis.create_od_agent_pivot` the leaf pivot is rounded to
the variant's 2 decimals first, and the `(org, 'Total')` and
`('Grand Total', '')` rows are exact, un-re-rounded sums of those rounded
leaves, so rounding there happens before the subtotal arithmetic, not
after. -/
theorem C5_rounding_placement :
    (∀ (today : RCS.PyDate) (d : Traffic.DFS) (T : Traffic.TableZ),
      d.isEmpty = false →
      Traffic.create_traffic_pivot today d = .ok T →
      ∃ rows, Traffic.trafficCore today d = .ok rows ∧
        T.rows = rows.map (fun p => (p.1, Traffic.roundRow p.2))) ∧
    (∀ df : List Analysis.ARec, df ≠ [] →
      (∀ r ∈ df.filter (fun r => r.vcType == "OD"),
        r.vcAgentName ≠ "Total") →
      (∀ r ∈ df.filter (fun r => r.vcType == "OD"),
        r.vcORGName ≠ "Grand Total") →
      (∀ k ∈ RCS.sortedUniqueP ((df.filter (fun r => r.vcType == "OD")).map
          (fun r => (r.vcORGName, r.vcAgentName))),
        (Analysis.create_od_agent_pivot df).find? (fun p => p.1 == k) =
          some (k,
            ⟨RCS.roundTo 2 ((((df.filter (fun r => r.vcType == "OD")).filter
                (fun r => r.vcORGName == k.1 && r.vcAgentName == k.2)).map
                  (fun r => r.iTotalDelivered)).sum),
             RCS.roundTo 2 ((((df.filter (fun r => r.vcType == "OD")).filter
                (fun r => r.vcORGName == k.1 && r.vcAgentName == k.2)).map
                  (fun r => r.iTotalSentSuccess)).sum)⟩)) ∧
      (Analysis.create_od_agent_pivot df).find?
          (fun p => p.1 == ("Grand Total", "")) =
        some (("Grand Total", ""),
          ⟨((RCS.sortedUniqueP ((df.filter (fun r => r.vcType == "OD")).map
              (fun r => (r.vcORGName, r.vcAgentName)))).map
                (fun k => (Analysis.odAgentCell df k).sentCol)).sum,
           ((RCS.sortedUniqueP ((df.filter (fun r => r.vcType == "OD")).map
              (fun r => (r.vcORGName, r.vcAgentName)))).map
                (fun k => (Analysis.odAgentCell df k).delCol)).sum⟩)) := by
  constructor
  · intro today d T hne h
    unfold Traffic.create_traffic_pivot at h
    rw [if_neg (by simpa using hne)] at h
    rcases hc : Traffic.trafficCore today d with e | rows
    · rw [hc] at h
      exact absurd h (by simp)
    · rw [hc] at h
      dsimp only at h
      refine ⟨rows, rfl, ?_⟩
      unfold Traffic.roundStage at h
      by_cases hall : rows.all
          (fun p => Traffic.rowComplete (Traffic.hasM1 d) (Traffic.hasM2 d) p.2) = true
      · rw [if_pos hall] at h
        rw [← Except.ok.inj h]
      · rw [if_neg hall] at h
        exact absurd h (by simp)
  · intro df hne hag hgo
    constructor
    · intro k hk
      rw [Analysis.od_agent_pivot_shape df hne hag hgo, List.find?_append,
        List.find?_append]
      have hfind : (Analysis.odAgentLeaves df).find? (fun p => p.1 == k) =
          some (k, Analysis.odAgentCell df k) :=
        Analysis.find_map_key _ _ k (RCS.sortedUniqueP_nodup _) hk
      rw [hfind]
      rfl
    · rw [Analysis.od_agent_pivot_shape df hne hag hgo, List.find?_append,
        List.find?_append]
      have h1 : (Analysis.odAgentLeaves df).find?
          (fun p => p.1 == ("Grand Total", "")) = none := by
        apply Analysis.find_map_none
        intro p hp
        have hk := Analysis.odAgentLeaves_key_mem df p hp
        rcases List.mem_map.mp hk with ⟨r, hr, hkey⟩
        simp only [beq_eq_false_iff_ne]
        intro hc
        have : p.1.1 = "Grand Total" := by rw [hc]
        rw [← hkey] at this
        exact hgo r hr this
      have h2 : ((RCS.uniqFirst ((df.filter (fun r => r.vcType == "OD")).map
          (fun r => r.vcORGName))).map (fun org =>
            ((org, "Total"), Analysis.odAgentSub df org))).find?
          (fun p => p.1 == ("Grand Total", "")) = none := by
        apply Analysis.find_map_none
        intro p hp
        rcases List.mem_map.mp hp with ⟨org, ho, rfl⟩
        simp only [beq_eq_false_iff_ne]
        intro hc
        have h3 : ("Total" : String) = "" := congrArg Prod.snd hc
        exact absurd h3 (by decide)
      rw [h1, h2]
      simp only [Option.none_or]
      rw [List.find?_cons_of_pos _ (by simp)]
      congr 1
      congr 1
      unfold Analysis.odAgentGrand Analysis.odAgentLeaves
      rw [List.map_map, List.map_map]
      rfl

/-- Witness for the amended C5 at a two-record frame and a concrete run:
the traffic pivot on `dfsW` factors through its unrounded core, the OD leaf
cells are the rounded sums, and the grand total is the sum of the rounded
leaves. -/
theorem C5_rounding_placement_witness :
    (∃ rows, Traffic.trafficCore Fixtures.todayRun Fixtures.dfsW = .ok rows ∧
      Fixtures.tblW.rows = rows.map (fun p => (p.1, Traffic.roundRow p.2))) ∧
    ((Analysis.create_od_agent_pivot [Fixtures.arec5a, Fixtures.arec5b]).find?
        (fun p => p.1 == (("A", "x") : String × String)) =
      some (("A", "x"),
        ⟨RCS.roundTo 2 (((([Fixtures.arec5a, Fixtures.arec5b].filter
            (fun r => r.vcType == "OD")).filter
            (fun r => r.vcORGName == "A" && r.vcAgentName == "x")).map
              (fun r => r.iTotalDelivered)).sum),
         RCS.roundTo 2 (((([Fixtures.arec5a, Fixtures.arec5b].filter
            (fun r => r.vcType == "OD")).filter
            (fun r => r.vcORGName == "A" && r.vcAgentName == "x")).map
              (fun r => r.iTotalSentSuccess)).sum)⟩)) := by
  constructor
  · exact C5_rounding_placement.1 Fixtures.todayRun Fixtures.dfsW Fixtures.tblW
      (by decide) eval_pivot_dfsW
  · exact (C5_rounding_placement.2 [Fixtures.arec5a, Fixtures.arec5b]
      (by decide) (by decide) (by decide)).1 ("A", "x") (by decide)

/-! ## Structure of `traffic.create_traffic_pivot` -/

namespace Traffic

open RCS

theorem stage1_label_mem (d : DFS) (p : String × RowQ) (hp : p ∈ stage1 d) :
    p.1 ∈ orgsOf d ∨ p.1 ∈ trafficTypes := by
  unfold stage1 at hp
  rcases List.mem_flatMap.mp hp with ⟨org, ho, hin⟩
  rcases List.mem_cons.mp hin with rfl | hin
  · exact Or.inl ho
  · rcases List.mem_map.mp hin with ⟨t, ht, rfl⟩
    exact Or.inr ht

theorem stage1_label_false (d : DFS) (lab : String)
    (ho : ∀ org ∈ orgsOf d, org ≠ lab)
    (ht : ∀ t ∈ trafficTypes, t ≠ lab) :
    ∀ p ∈ stage1 d, (p.1 == lab) = false := by
  intro p hp
  rcases stage1_label_mem d p hp with h | h
  · simpa using ho p.1 h
  · simpa using ht p.1 h

theorem stage1_any_false (d : DFS) (lab : String)
    (ho : ∀ org ∈ orgsOf d, org ≠ lab)
    (ht : ∀ t ∈ trafficTypes, t ≠ lab) :
    (stage1 d).any (fun p => p.1 == lab) = false := by
  rw [List.any_eq_false]
  intro p hp
  simp [stage1_label_false d lab ho ht p hp]

theorem stage1_filter_type_aux (d : DFS) (t : String)
    (ht : t ∈ trafficTypes) (orgs : List String)
    (ho : ∀ o ∈ orgs, o ≠ t) :
    ((orgs.flatMap (fun org => (org, mkOrgRow d org) ::
        trafficTypes.map (fun t' => (t', mkTypeRow d org t')))).filter
          (fun p => p.1 == t)) =
      orgs.map (fun org => (t, mkTypeRow d org t)) := by
  induction orgs with
  | nil => rfl
  | cons o os ih =>
    rw [List.flatMap_cons, List.filter_append,
      ih (fun o' h' => ho o' (List.mem_cons_of_mem _ h'))]
    have hot : (o == t) = false := by
      simpa using ho o (List.mem_cons_self o os)
    rcases (show t = "CPL" ∨ t = "Enterprise" ∨ t = "OD" by
        simpa [trafficTypes] using ht) with rfl | rfl | rfl <;>
      simp +decide [trafficTypes, List.filter_cons, hot]

theorem stage1_filter_type (d : DFS) (t : String) (ht : t ∈ trafficTypes)
    (ho : ∀ org ∈ orgsOf d, org ≠ t) :
    ((stage1 d).filter (fun p => p.1 == t)) =
      (orgsOf d).map (fun org => (t, mkTypeRow d org t)) :=
  stage1_filter_type_aux d t ht (orgsOf d) ho

theorem sumRows_congr (h1 h2 : Bool) (rows rows' : List (String × RowQ))
    (keep : String → Bool)
    (h : rows.filter (fun p => keep p.1) = rows'.filter (fun p => keep p.1)) :
    sumRows h1 h2 rows keep = sumRows h1 h2 rows' keep := by
  unfold sumRows
  rw [h]

/-- Layout of the rows after the two total-insertion passes, when no
organisation label collides with a `'Total ...'` label or the grand-total
label: the stage-1 rows followed by the three type totals (each summing
stage-1 rows of its exact label) and the grand total (summing stage-1 rows
whose label does not contain `'Total'`). -/
theorem traffic_totals_shape (d : DFS)
    (h2lab : ∀ org ∈ orgsOf d, strContains org "Total" = false) :
    addGrand (hasM1 d) (hasM2 d)
        (addTypeTotals (hasM1 d) (hasM2 d) (stage1 d)) =
      stage1 d ++
        [("Total CPL",
          sumRows (hasM1 d) (hasM2 d) (stage1 d) (fun l => l == "CPL")),
         ("Total Enterprise",
          sumRows (hasM1 d) (hasM2 d) (stage1 d) (fun l => l == "Enterprise")),
         ("Total OD",
          sumRows (hasM1 d) (hasM2 d) (stage1 d) (fun l => l == "OD")),
         ("G. Total",
          sumRows (hasM1 d) (hasM2 d) (stage1 d)
            (fun l => !(strContains l "Total")))] := by
  have hoc : ∀ (lab : String), strContains lab "Total" = true →
      ∀ org ∈ orgsOf d, org ≠ lab := by
    intro lab hlab org ho hc
    subst hc
    rw [h2lab org ho] at hlab
    exact Bool.false_ne_true hlab
  have ho1 := hoc "Total CPL" (by decide)
  have ho2 := hoc "Total Enterprise" (by decide)
  have ho3 := hoc "Total OD" (by decide)
  have ho4 := hoc "G. Total" (by decide)
  have a1 := stage1_any_false d "Total CPL" ho1 (by decide)
  have e1 : ("Total " ++ "CPL" : String) = "Total CPL" := by decide
  have e2 : ("Total " ++ "Enterprise" : String) = "Total Enterprise" := by decide
  have e3 : ("Total " ++ "OD" : String) = "Total OD" := by decide
  unfold addTypeTotals
  rw [show trafficTypes = ["CPL", "Enterprise", "OD"] from rfl,
    List.foldl_cons, List.foldl_cons, List.foldl_cons, List.foldl_nil,
    e1, e2, e3, locSet_of_not_mem _ _ _ a1]
  have hf2 : ((stage1 d ++ [("Total CPL",
      sumRows (hasM1 d) (hasM2 d) (stage1 d) (fun l => l == "CPL"))]).filter
        (fun p => p.1 == "Enterprise")) =
      (stage1 d).filter (fun p => p.1 == "Enterprise") := by
    rw [List.filter_append]
    simp +decide
  have a2 : ((stage1 d ++ [("Total CPL",
      sumRows (hasM1 d) (hasM2 d) (stage1 d) (fun l => l == "CPL"))]).any
        (fun p => p.1 == "Total Enterprise")) = false := by
    rw [List.any_append, stage1_any_false d "Total Enterprise" ho2 (by decide)]
    simp +decide
  have hs2 := sumRows_congr (hasM1 d) (hasM2 d)
    (stage1 d ++ [("Total CPL",
      sumRows (hasM1 d) (hasM2 d) (stage1 d) (fun l => l == "CPL"))])
    (stage1 d) (fun l => l == "Enterprise") hf2
  rw [hs2, locSet_of_not_mem _ _ _ a2, List.append_assoc]
  have hf3 : ((stage1 d ++ ([("Total CPL",
      sumRows (hasM1 d) (hasM2 d) (stage1 d) (fun l => l == "CPL"))] ++
      [("Total Enterprise",
        sumRows (hasM1 d) (hasM2 d) (stage1 d)
          (fun l => l == "Enterprise"))])).filter
        (fun p => p.1 == "OD")) =
      (stage1 d).filter (fun p => p.1 == "OD") := by
    rw [List.filter_append]
    simp +decide
  have a3 : ((stage1 d ++ ([("Total CPL",
      sumRows (hasM1 d) (hasM2 d) (stage1 d) (fun l => l == "CPL"))] ++
      [("Total Enterprise",
        sumRows (hasM1 d) (hasM2 d) (stage1 d)
          (fun l => l == "Enterprise"))])).any
        (fun p => p.1 == "Total OD")) = false := by
    rw [List.any_append, stage1_any_false d "Total OD" ho3 (by decide)]
    simp +decide
  have hs3 := sumRows_congr (hasM1 d) (hasM2 d)
    (stage1 d ++ ([("Total CPL",
      sumRows (hasM1 d) (hasM2 d) (stage1 d) (fun l => l == "CPL"))] ++
      [("Total Enterprise",
        sumRows (hasM1 d) (hasM2 d) (stage1 d) (fun l => l == "Enterprise"))]))
    (stage1 d) (fun l => l == "OD") hf3
  rw [hs3, locSet_of_not_mem _ _ _ a3, List.append_assoc]
  unfold addGrand
  have hf4 : ((stage1 d ++ (([("Total CPL",
      sumRows (hasM1 d) (hasM2 d) (stage1 d) (fun l => l == "CPL"))] ++
      [("Total Enterprise",
        sumRows (hasM1 d) (hasM2 d) (stage1 d) (fun l => l == "Enterprise"))]) ++
       [("Total OD",
        sumRows (hasM1 d) (hasM2 d) (stage1 d) (fun l => l == "OD"))])).filter
        (fun p => !(strContains p.1 "Total"))) =
      (stage1 d).filter (fun p => !(strContains p.1 "Total")) := by
    rw [List.filter_append]
    simp +decide [List.filter_cons, strContains, chSub, chPre]
  have a4 : ((stage1 d ++ (([("Total CPL",
      sumRows (hasM1 d) (hasM2 d) (stage1 d) (fun l => l == "CPL"))] ++
      [("Total Enterprise",
        sumRows (hasM1 d) (hasM2 d) (stage1 d) (fun l => l == "Enterprise"))]) ++
       [("Total OD",
        sumRows (hasM1 d) (hasM2 d) (stage1 d) (fun l => l == "OD"))])).any
        (fun p => p.1 == "G. Total")) = false := by
    rw [List.any_append, stage1_any_false d "G. Total" ho4 (by decide)]
    simp +decide
  have hs4 := sumRows_congr (hasM1 d) (hasM2 d)
    (stage1 d ++ (([("Total CPL",
      sumRows (hasM1 d) (hasM2 d) (stage1 d) (fun l => l == "CPL"))] ++
      [("Total Enterprise",
        sumRows (hasM1 d) (hasM2 d) (stage1 d) (fun l => l == "Enterprise"))]) ++
       [("Total OD",
        sumRows (hasM1 d) (hasM2 d) (stage1 d) (fun l => l == "OD"))]))
    (stage1 d) (fun l => !(strContains l "Total")) hf4
  rw [hs4, locSet_of_not_mem _ _ _ a4, List.append_assoc]
  simp

end Traffic

namespace Traffic

open RCS

/-- Decomposition of a successful pivot run: the rows of the result are the
totals-extended stage-1 rows, carried through growth, projection and the
final rounding. -/
theorem create_ok_decomp (today : PyDate) (d : DFS) (T : TableZ)
    (hne : d.isEmpty = false) (h : create_traffic_pivot today d = .ok T) :
    ∃ ratio, projRatio (daysInMonth today.y today.m) today.d = some ratio ∧
      T.rows = (addGrand (hasM1 d) (hasM2 d)
          (addTypeTotals (hasM1 d) (hasM2 d) (stage1 d))).map
        (fun p => (p.1, roundRow (addProj ratio (addGrowth p.2)))) := by
  unfold create_traffic_pivot at h
  rw [if_neg (by simpa using hne)] at h
  unfold trafficCore at h
  rcases hf : d.ftd with _ | ftdDf <;> rw [hf] at h
  · exact absurd h (by simp)
  · dsimp only at h
    rcases hr : projRatio (daysInMonth today.y today.m) today.d
        with _ | ratio <;> rw [hr] at h
    · exact absurd h (by simp)
    · dsimp only at h
      refine ⟨ratio, rfl, ?_⟩
      unfold roundStage at h
      by_cases hall : (((addGrand (hasM1 d) (hasM2 d)
          (addTypeTotals (hasM1 d) (hasM2 d) (stage1 d))).map
            (fun p => (p.1, addGrowth p.2))).map
              (fun p => (p.1, addProj ratio p.2))).all
            (fun p => rowComplete (hasM1 d) (hasM2 d) p.2) = true
      · rw [if_pos hall] at h
        dsimp only at h
        rw [← Except.ok.inj h]
        dsimp only
        rw [List.map_map, List.map_map]
        rfl
      · rw [if_neg hall] at h
        exact absurd h (by simp)

end Traffic

namespace RCS

theorem sum_map_intCast {α : Type} (l : List α) (f : α → ℤ) :
    (l.map (fun o => ((f o : ℤ) : ℚ))).sum = (((l.map f).sum : ℤ) : ℚ) := by
  induction l with
  | nil => simp
  | cons x xs ih => simp [ih]

end RCS

namespace Traffic

open RCS

/-- Rounding a skip-NaN column sum of integer-valued cells agrees with
summing the individually rounded cells: both equal the integer sum. -/
theorem typeCell_round_sum (df? : Option (List TRec)) (orgs : List String)
    (t : String) :
    rhe ((orgs.map (fun o => (typeCell df? o t).getD 0)).sum) =
      (orgs.map (fun o => ((typeCell df? o t).map rhe).getD 0)).sum := by
  rcases df? with _ | l
  · simp only [typeCell, Option.map_none, Option.getD_none]
    simp [rhe]
  · simp only [typeCell, Option.map_some', Option.getD_some]
    rw [sum_map_intCast orgs
      (fun o => sumSent (l.filter (fun r => r.vcORGName == o && r.vcType == t))),
      rhe_intCast]
    simp only [rhe_intCast]

/-- Rounding a row keeps each cell, rounded. -/
theorem roundRow_cell (r : RowQ) (c : Col) :
    (roundRow r).cell c = (r.cell c).map rhe := by
  cases c <;> rfl

/-- Growth and projection assignment leave the period cells unchanged. -/
theorem addGP_cell (ratio : ℚ) (r : RowQ) (c : Col)
    (hc : c = Col.ftd ∨ c = Col.mtd ∨ c = Col.lmtd ∨ c = Col.m1 ∨ c = Col.m2) :
    (addProj ratio (addGrowth r)).cell c = r.cell c := by
  rcases hc with rfl | rfl | rfl | rfl | rfl <;> rfl

/-- The period cells of a type-breakdown row come from the corresponding
period frame. -/
theorem mkTypeRow_cell (d : DFS) (org t : String) (c : Col)
    (hc : c = Col.ftd ∨ c = Col.mtd ∨ c = Col.lmtd ∨ c = Col.m1 ∨ c = Col.m2) :
    (mkTypeRow d org t).cell c = typeCell (colDf d c) org t := by
  rcases hc with rfl | rfl | rfl | rfl | rfl <;> rfl

/-- The always-present cells of a column-wise total row. -/
theorem sumRows_cell_basic (h1 h2 : Bool) (rows : List (String × RowQ))
    (keep : String → Bool) (c : Col)
    (hc : c = Col.ftd ∨ c = Col.mtd ∨ c = Col.lmtd) :
    (sumRows h1 h2 rows keep).cell c =
      some (((rows.filter (fun p => keep p.1)).map
        (fun p => (p.2.cell c).getD 0)).sum) := by
  rcases hc with rfl | rfl | rfl <;> rfl

/-- The month cells of a column-wise total row exist exactly when the month
column exists. -/
theorem sumRows_cell_month (h1 h2 : Bool) (rows : List (String × RowQ))
    (keep : String → Bool) :
    (sumRows h1 h2 rows keep).cell Col.m1 =
      (if h1 then some (((rows.filter (fun p => keep p.1)).map
        (fun p => (p.2.cell Col.m1).getD 0)).sum) else none) ∧
    (sumRows h1 h2 rows keep).cell Col.m2 =
      (if h2 then some (((rows.filter (fun p => keep p.1)).map
        (fun p => (p.2.cell Col.m2).getD 0)).sum) else none) := by
  constructor <;> rfl

end Traffic

namespace Traffic

open RCS

/-- The cell of a rounded, growth/projection-extended type total equals the
sum of the corresponding cells of the rounded per-organisation breakdown
rows, for every period column. -/
theorem total_cell_eq (d : DFS) (ratio : ℚ) (t : String)
    (ht : t ∈ trafficTypes) (ho : ∀ org ∈ orgsOf d, org ≠ t) (c : Col)
    (hc : c = Col.ftd ∨ c = Col.mtd ∨ c = Col.lmtd ∨ c = Col.m1 ∨ c = Col.m2)
    (htot : (sumRows (hasM1 d) (hasM2 d) (stage1 d) (fun l => l == t)).cell c =
      some ((((stage1 d).filter (fun p => p.1 == t)).map
        (fun p => ((p.2).cell c).getD 0)).sum)) :
    (roundRow (addProj ratio (addGrowth
        (sumRows (hasM1 d) (hasM2 d) (stage1 d) (fun l => l == t))))).cell c =
      some (((((stage1 d).filter (fun p => p.1 == t)).map
        (fun p => (p.1, roundRow (addProj ratio (addGrowth p.2))))).map
          (fun p => ((p.2).cell c).getD 0)).sum) := by
  have hGP : ∀ r : RowQ, (addProj ratio (addGrowth r)).cell c = r.cell c :=
    fun r => addGP_cell ratio r c hc
  rw [roundRow_cell, hGP, htot, Option.map_some']
  have hft := stage1_filter_type d t ht ho
  rw [hft]
  simp only [List.map_map]
  congr 1
  have hL : ∀ o : String, (mkTypeRow d o t).cell c = typeCell (colDf d c) o t :=
    fun o => mkTypeRow_cell d o t c hc
  simp only [Function.comp_def]
  simp only [hGP, roundRow_cell, hL]
  exact typeCell_round_sum (colDf d c) (orgsOf d) t

end Traffic

namespace Analysis

open RCS

/-- Finding an organisation's subtotal key among the appended subtotal
rows. -/
theorem find_map_pairkey {V : Type} (orgs : List String) (f : String → V)
    (org : String) (hn : orgs.Nodup) (ho : org ∈ orgs) :
    (orgs.map (fun o => ((o, "Total"), f o))).find?
        (fun p => p.1 == ((org, "Total") : String × String)) =
      some ((org, "Total"), f org) := by
  induction orgs with
  | nil => cases ho
  | cons a as ih =>
    rcases List.mem_cons.mp ho with rfl | ho'
    · simp [List.find?_cons]
    · have hne : (((a, "Total") : String × String) == (org, "Total")) = false := by
        simp only [beq_eq_false_iff_ne]
        intro hc
        have ha : a = org := by simpa using congrArg Prod.fst hc
        exact (List.nodup_cons.mp hn).1 (ha ▸ ho')
      simp only [List.map_cons, List.find?_cons, hne]
      exact ih (List.Nodup.of_cons hn) ho'

end Analysis

namespace Traffic

open RCS

/-- Specification of one `'Total <t>'` row of a finished pivot whose rows
decompose as stage-1 rows plus a totals block: the row is found under its
label and each of its period cells is the sum of the corresponding cells of
the table's rows labelled `t`. -/
theorem total_row_spec_aux (d : DFS) (T : TableZ) (ratio : ℚ)
    (block : List (String × RowQ)) (t : String) (ht : t ∈ trafficTypes)
    (ho : ∀ org ∈ orgsOf d, org ≠ t)
    (hshape : T.rows = (stage1 d ++ block).map
      (fun p => (p.1, roundRow (addProj ratio (addGrowth p.2)))))
    (hbf : block.find? (fun p => p.1 == "Total " ++ t) =
      some ("Total " ++ t,
        sumRows (hasM1 d) (hasM2 d) (stage1 d) (fun l => l == t)))
    (hbfil : block.filter (fun p => p.1 == t) = [])
    (hstage : ∀ p ∈ stage1 d, (p.1 == "Total " ++ t) = false) :
    ∃ row : RowZ,
      T.rows.find? (fun p => p.1 == "Total " ++ t) =
        some ("Total " ++ t, row) ∧
      ∀ c : Col,
        ((c = Col.ftd ∨ c = Col.mtd ∨ c = Col.lmtd) ∨
          (c = Col.m1 ∧ hasM1 d = true) ∨ (c = Col.m2 ∧ hasM2 d = true)) →
        row.cell c = some (((T.rows.filter (fun p => p.1 == t)).map
          (fun p => ((p.2).cell c).getD 0)).sum) := by
  have hflm := filter_label_map
    (fun r => roundRow (addProj ratio (addGrowth r))) (stage1 d ++ block)
    (fun l => l == t)
  have hchild : T.rows.filter (fun p => p.1 == t) =
      ((stage1 d).filter (fun p => p.1 == t)).map
        (fun p => (p.1, roundRow (addProj ratio (addGrowth p.2)))) := by
    rw [hshape, hflm, List.filter_append, hbfil, List.append_nil]
  refine ⟨roundRow (addProj ratio (addGrowth
    (sumRows (hasM1 d) (hasM2 d) (stage1 d) (fun l => l == t)))), ?_, ?_⟩
  · have hnone : (stage1 d).find? (fun p => p.1 == "Total " ++ t) = none := by
      rw [List.find?_eq_none]
      intro p hp
      simp [hstage p hp]
    have hfim := find_label_map
      (fun r => roundRow (addProj ratio (addGrowth r))) (stage1 d ++ block)
      (fun l => l == "Total " ++ t)
    rw [hshape, hfim, List.find?_append, hnone, Option.none_or, hbf]
    rfl
  · intro c hc
    rw [hchild]
    rcases hc with hb | ⟨rfl, hm⟩ | ⟨rfl, hm⟩
    · refine total_cell_eq d ratio t ht ho c ?_
        (sumRows_cell_basic (hasM1 d) (hasM2 d) (stage1 d) _ c hb)
      rcases hb with rfl | rfl | rfl
      · exact Or.inl rfl
      · exact Or.inr (Or.inl rfl)
      · exact Or.inr (Or.inr (Or.inl rfl))
    · refine total_cell_eq d ratio t ht ho Col.m1
        (Or.inr (Or.inr (Or.inr (Or.inl rfl)))) ?_
      rw [(sumRows_cell_month (hasM1 d) (hasM2 d) (stage1 d) _).1, if_pos hm]
    · refine total_cell_eq d ratio t ht ho Col.m2
        (Or.inr (Or.inr (Or.inr (Or.inr rfl)))) ?_
      rw [(sumRows_cell_month (hasM1 d) (hasM2 d) (stage1 d) _).2, if_pos hm]

end Traffic

/-- C6: every hierarchy subtotal row equals, in every period column, the sum
of its direct children as they appear in the produced table.  In the traffic
pivot each `'Total <vtype>'` row equals the column-wise sum of the table's
per-organisation breakdown rows labelled `<vtype>` (all period columns,
including the historical-month columns when present); in the OD-agent pivot
each `(org, 'Total')` row equals the column-wise sum of that organisation's
agent leaf rows.  Label hypotheses rule out organisation or agent names that
collide with the reserved total labels. -/
theorem C6_subtotal_equals_children_sum (today : RCS.PyDate)
    (d : Traffic.DFS) (T : Traffic.TableZ)
    (hne : d.isEmpty = false)
    (hok : Traffic.create_traffic_pivot today d = .ok T)
    (horgT : ∀ org ∈ Traffic.orgsOf d, RCS.strContains org "Total" = false)
    (horgTy : ∀ org ∈ Traffic.orgsOf d, org ∉ Traffic.trafficTypes)
    (df : List Analysis.ARec) (hdfne : df ≠ [])
    (hag : ∀ r ∈ df.filter (fun r => r.vcType == "OD"),
      r.vcAgentName ≠ "Total")
    (hgo : ∀ r ∈ df.filter (fun r => r.vcType == "OD"),
      r.vcORGName ≠ "Grand Total") :
    (∀ t ∈ Traffic.trafficTypes,
      ∃ row : Traffic.RowZ,
        T.rows.find? (fun p => p.1 == "Total " ++ t) =
          some ("Total " ++ t, row) ∧
        ∀ c : Traffic.Col,
          ((c = Traffic.Col.ftd ∨ c = Traffic.Col.mtd ∨ c = Traffic.Col.lmtd) ∨
            (c = Traffic.Col.m1 ∧ Traffic.hasM1 d = true) ∨
            (c = Traffic.Col.m2 ∧ Traffic.hasM2 d = true)) →
          row.cell c = some (((T.rows.filter (fun p => p.1 == t)).map
            (fun p => ((p.2).cell c).getD 0)).sum)) ∧
    (∀ org ∈ RCS.uniqFirst ((df.filter (fun r => r.vcType == "OD")).map
        (fun r => r.vcORGName)),
      ∃ row : Analysis.AgRow,
        (Analysis.create_od_agent_pivot df).find?
            (fun p => p.1 == ((org, "Total") : String × String)) =
          some ((org, "Total"), row) ∧
        row.sentCol = (((Analysis.create_od_agent_pivot df).filter
            (fun p => p.1.1 == org && !(p.1.2 == "Total"))).map
              (fun p => p.2.sentCol)).sum ∧
        row.delCol = (((Analysis.create_od_agent_pivot df).filter
            (fun p => p.1.1 == org && !(p.1.2 == "Total"))).map
              (fun p => p.2.delCol)).sum) := by
  constructor
  · intro t ht
    obtain ⟨ratio, hr, hrows⟩ := Traffic.create_ok_decomp today d T hne hok
    rw [Traffic.traffic_totals_shape d horgT] at hrows
    have hoc : ∀ (lab : String), RCS.strContains lab "Total" = true →
        ∀ org ∈ Traffic.orgsOf d, org ≠ lab := by
      intro lab hlab org ho hc
      subst hc
      rw [horgT org ho] at hlab
      exact Bool.false_ne_true hlab
    have hot : ∀ org ∈ Traffic.orgsOf d, org ≠ t := by
      intro org ho hc
      subst hc
      exact horgTy org ho ht
    rcases (show t = "CPL" ∨ t = "Enterprise" ∨ t = "OD" from by
        simpa [Traffic.trafficTypes] using ht) with rfl | rfl | rfl
    · exact Traffic.total_row_spec_aux d T ratio _ _ ht hot hrows rfl rfl
        (Traffic.stage1_label_false d _ (hoc _ (by decide)) (by decide))
    · exact Traffic.total_row_spec_aux d T ratio _ _ ht hot hrows rfl rfl
        (Traffic.stage1_label_false d _ (hoc _ (by decide)) (by decide))
    · exact Traffic.total_row_spec_aux d T ratio _ _ ht hot hrows rfl rfl
        (Traffic.stage1_label_false d _ (hoc _ (by decide)) (by decide))
  · intro org ho
    have horgne : org ≠ "Grand Total" := by
      rcases List.mem_map.mp ((RCS.mem_uniqFirst _ _).mp ho) with ⟨r, hr, rfl⟩
      exact hgo r hr
    rw [Analysis.od_agent_pivot_shape df hdfne hag hgo]
    refine ⟨Analysis.odAgentSub df org, ?_, ?_, ?_⟩
    · rw [List.find?_append, List.find?_append]
      have h1 : (Analysis.odAgentLeaves df).find?
          (fun p => p.1 == ((org, "Total") : String × String)) = none := by
        apply Analysis.find_map_none
        intro p hp
        have hk := Analysis.odAgentLeaves_key_mem df p hp
        rcases List.mem_map.mp hk with ⟨r, hr, hkey⟩
        simp only [beq_eq_false_iff_ne]
        intro hc
        have h2 : p.1.2 = "Total" := by rw [hc]
        rw [← hkey] at h2
        exact hag r hr h2
      rw [h1, Option.none_or,
        Analysis.find_map_pairkey _ _ org (RCS.uniqFirst_nodup _) ho]
      rfl
    · rw [List.filter_append, List.filter_append]
      have h1 : ((RCS.uniqFirst ((df.filter (fun r => r.vcType == "OD")).map
          (fun r => r.vcORGName))).map (fun o =>
            ((o, "Total"), Analysis.odAgentSub df o))).filter
          (fun p => p.1.1 == org && !(p.1.2 == "Total")) = [] := by
        rw [List.filter_eq_nil_iff]
        intro p hp
        rcases List.mem_map.mp hp with ⟨o, hom, rfl⟩
        simp
      have h2 : ([(("Grand Total", ""), Analysis.odAgentGrand df)]).filter
          (fun p => p.1.1 == org && !(p.1.2 == "Total"))  = [] := by
        rw [List.filter_eq_nil_iff]
        intro p hp
        have hp' : p = (("Grand Total", ""), Analysis.odAgentGrand df) := by
          simpa using hp
        subst hp'
        simp [Ne.symm horgne]
      have h3 : (Analysis.odAgentLeaves df).filter
          (fun p => p.1.1 == org && !(p.1.2 == "Total")) =
          (Analysis.odAgentLeaves df).filter (fun p => p.1.1 == org) := by
        apply List.filter_congr
        intro p hp
        have hk := Analysis.odAgentLeaves_key_mem df p hp
        rcases List.mem_map.mp hk with ⟨r, hr, hkey⟩
        have hpa : p.1.2 ≠ "Total" := by
          rw [← hkey]
          exact hag r hr
        simp [hpa]
      rw [h1, h2, h3, List.append_nil, List.append_nil]
      rfl
    · rw [List.filter_append, List.filter_append]
      have h1 : ((RCS.uniqFirst ((df.filter (fun r => r.vcType == "OD")).map
          (fun r => r.vcORGName))).map (fun o =>
            ((o, "Total"), Analysis.odAgentSub df o))).filter
          (fun p => p.1.1 == org && !(p.1.2 == "Total")) = [] := by
        rw [List.filter_eq_nil_iff]
        intro p hp
        rcases List.mem_map.mp hp with ⟨o, hom, rfl⟩
        simp
      have h2 : ([(("Grand Total", ""), Analysis.odAgentGrand df)]).filter
          (fun p => p.1.1 == org && !(p.1.2 == "Total"))  = [] := by
        rw [List.filter_eq_nil_iff]
        intro p hp
        have hp' : p = (("Grand Total", ""), Analysis.odAgentGrand df) := by
          simpa using hp
        subst hp'
        simp [Ne.symm horgne]
      have h3 : (Analysis.odAgentLeaves df).filter
          (fun p => p.1.1 == org && !(p.1.2 == "Total")) =
          (Analysis.odAgentLeaves df).filter (fun p => p.1.1 == org) := by
        apply List.filter_congr
        intro p hp
        have hk := Analysis.odAgentLeaves_key_mem df p hp
        rcases List.mem_map.mp hk with ⟨r, hr, hkey⟩
        have hpa : p.1.2 ≠ "Total" := by
          rw [← hkey]
          exact hag r hr
        simp [hpa]
      rw [h1, h2, h3, List.append_nil, List.append_nil]
      rfl

/-- Witness for C6 on the empty-frames dictionary (where the type totals are
all-zero sums over no children) and a one-record OD frame. -/
theorem C6_subtotal_equals_children_sum_witness :
    (∀ t ∈ Traffic.trafficTypes,
      ∃ row : Traffic.RowZ,
        Fixtures.tblW.rows.find? (fun p => p.1 == "Total " ++ t) =
          some ("Total " ++ t, row) ∧
        ∀ c : Traffic.Col,
          ((c = Traffic.Col.ftd ∨ c = Traffic.Col.mtd ∨ c = Traffic.Col.lmtd) ∨
            (c = Traffic.Col.m1 ∧ Traffic.hasM1 Fixtures.dfsW = true) ∨
            (c = Traffic.Col.m2 ∧ Traffic.hasM2 Fixtures.dfsW = true)) →
          row.cell c = some (((Fixtures.tblW.rows.filter
            (fun p => p.1 == t)).map
              (fun p => ((p.2).cell c).getD 0)).sum)) ∧
    (∀ org ∈ RCS.uniqFirst (([Fixtures.arecW].filter
        (fun r => r.vcType == "OD")).map (fun r => r.vcORGName)),
      ∃ row : Analysis.AgRow,
        (Analysis.create_od_agent_pivot [Fixtures.arecW]).find?
            (fun p => p.1 == ((org, "Total") : String × String)) =
          some ((org, "Total"), row) ∧
        row.sentCol = (((Analysis.create_od_agent_pivot [Fixtures.arecW]).filter
            (fun p => p.1.1 == org && !(p.1.2 == "Total"))).map
              (fun p => p.2.sentCol)).sum ∧
        row.delCol = (((Analysis.create_od_agent_pivot [Fixtures.arecW]).filter
            (fun p => p.1.1 == org && !(p.1.2 == "Total"))).map
              (fun p => p.2.delCol)).sum) :=
  C6_subtotal_equals_children_sum Fixtures.todayRun Fixtures.dfsW
    Fixtures.tblW (by decide) eval_pivot_dfsW (by decide) (by decide)
    [Fixtures.arecW] (by decide) (by decide) (by decide)
